import Mathlib

/-!
Shallow embedding of the vaporwm window manager (vhslib/vaporwm) in Lean 4,
translated from the Rust sources `src/wm.rs`, `src/client.rs`, `src/util.rs`,
`src/top_panel.rs`, `src/bottom_panel.rs`.

Machine integers: Rust `u16` fields are embedded as `Nat` and `i16` fields as
`Int`; the explicit `as`-casts of the source are embedded by the wrap
functions `wrapU16` / `wrapI16` / `u16ToI16` below (two's-complement
semantics, i.e. release-mode Rust).  Display-server commands issued through
the `Api` collaborator are embedded as an effect trace (`List Eff`), and the
read-only queries of the collaborator as an environment record `Env`.
-/

namespace Vaporwm

/-- `top_panel::PANEL_HEIGHT` from src/top_panel.rs. -/
def top_panel_PANEL_HEIGHT : Nat := 28

/-- `bottom_panel::PANEL_HEIGHT` from src/bottom_panel.rs. -/
def bottom_panel_PANEL_HEIGHT : Nat := 30

/-- `client::BORDER_WIDTH` from src/client.rs. -/
def BORDER_WIDTH : Nat := 5

/-- `client::TITLEBAR_HEIGHT` from src/client.rs. -/
def TITLEBAR_HEIGHT : Nat := 25

/-- Rust `as u16` cast of a signed value (two's complement wrap). -/
def wrapU16 (z : Int) : Nat := (z % 65536).toNat

/-- Reduction of an integer into the `i16` range by two's-complement wrap. -/
def wrapI16 (z : Int) : Int := (z + 32768) % 65536 - 32768

/-- Rust `as i16` cast of a `u16` value. -/
def u16ToI16 (n : Nat) : Int := wrapI16 (Int.ofNat n)

/-- Reply of `Api::get_window_geometry` (x11 GetGeometryReply fields used). -/
structure Geometry where
  x : Int
  y : Int
  width : Nat
  height : Nat
deriving DecidableEq

/-- Reply of `Api::get_window_attributes` (fields used by the core). -/
structure WindowAttributes where
  map_state_unmapped : Bool
  override_redirect : Bool
deriving DecidableEq

/-- Read-only view of the `App`/`Api` collaborator: screen dimensions, panel
window ids, and the blocking queries of the display server.  Icons are
bitmaps in the source; they are embedded as opaque handles (`Option Nat`). -/
structure Env where
  screen_width : Nat
  screen_height : Nat
  top_panel_id : Nat
  bottom_panel_id : Nat
  root_children : List Nat
  get_window_geometry : Nat → Geometry
  get_window_attributes : Nat → WindowAttributes
  get_window_class : Nat → Option String
  get_window_title : Nat → Option String
  get_window_icon : Nat → Option Nat

/-- One fire-and-forget command issued to the display-server collaborator or a
panel collaborator.  Buttons are encoded by their index (M1 = 1, M3 = 3). -/
inductive Eff where
  | create_window (window : Nat) (x y : Int) (width height : Nat)
  | map_window (window : Nat)
  | unmap_window (window : Nat)
  | raise_window (window : Nat)
  | reparent_window (window parent : Nat) (x y : Int)
  | add_to_save_set (window : Nat)
  | set_window_x (window : Nat) (x : Int)
  | set_window_y (window : Nat) (y : Int)
  | set_window_width (window width : Nat)
  | set_window_height (window height : Nat)
  | set_window_border_width (window border : Nat)
  | set_window_event_mask (window : Nat)
  | put_wm_state_property (window : Nat)
  | surface_set_size (window width height : Nat)
  | grab_button (window button : Nat)
  | ungrab_button (window button : Nat)
  | set_focus (window : Option Nat)
  | move_pointer (x y : Nat)
  | allow_pointer_events
  | allow_configure_request (window : Nat)
  | ask_window_to_close (window : Nat)
  | top_panel_notify
  | bottom_panel_notify
  | save_state_and_restart
deriving DecidableEq

/-- The `Client` struct of src/client.rs.  The cairo surface is not state the
core reads back; its resizes appear in the effect trace.  The Rust field
`class` is renamed `wm_class` (`class` is a Lean keyword). -/
structure Client where
  id : Nat
  container_id : Nat
  x : Int
  y : Int
  width : Nat
  height : Nat
  maximized : Bool
  wm_class : Option String
  title : Option String
  icon : Option Nat
  need_redraw : Bool
deriving DecidableEq

instance : Inhabited Client :=
  ⟨{ id := 0, container_id := 0, x := 0, y := 0, width := 0, height := 0,
     maximized := false, wm_class := none, title := none, icon := none,
     need_redraw := false }⟩

/-- `Client::container_x`. -/
def Client.container_x (c : Client) : Int :=
  if c.maximized then 0 else c.x - (BORDER_WIDTH : Int)

/-- `Client::container_y`. -/
def Client.container_y (c : Client) : Int :=
  if c.maximized then (top_panel_PANEL_HEIGHT : Int)
  else c.y - (BORDER_WIDTH : Int) - (TITLEBAR_HEIGHT : Int)

/-- `Client::container_width`. -/
def Client.container_width (env : Env) (c : Client) : Nat :=
  if c.maximized then env.screen_width else c.width + BORDER_WIDTH * 2

/-- `Client::container_height`. -/
def Client.container_height (env : Env) (c : Client) : Nat :=
  if c.maximized then
    env.screen_height - top_panel_PANEL_HEIGHT - bottom_panel_PANEL_HEIGHT
  else c.height + BORDER_WIDTH * 2 + TITLEBAR_HEIGHT

/-- `Client::inner_offset_x`. -/
def Client.inner_offset_x (c : Client) : Int :=
  if c.maximized then 0 else (BORDER_WIDTH : Int)

/-- `Client::inner_offset_y`. -/
def Client.inner_offset_y (c : Client) : Int :=
  if c.maximized then 0 else (BORDER_WIDTH : Int) + (TITLEBAR_HEIGHT : Int)

/-- `Client::grab_buttons_on_container`. -/
def Client.grab_buttons_on_container (c : Client) : List Eff :=
  [Eff.grab_button c.container_id 1, Eff.grab_button c.container_id 3]

/-- `Client::ungrab_buttons_on_container`. -/
def Client.ungrab_buttons_on_container (c : Client) : List Eff :=
  [Eff.ungrab_button c.container_id 1, Eff.ungrab_button c.container_id 3]

/-- `Client::new` (including the commands issued by `Client::init`).  The
container id the source draws from `Api::generate_id` is passed in. -/
def Client.new (env : Env) (container_id id : Nat) (x y : Int)
    (width height : Nat) (maximized : Bool) (wm_class ttl : Option String)
    (icon : Option Nat) : Client × List Eff :=
  let c : Client :=
    { id := id, container_id := container_id, x := x, y := y, width := width,
      height := height, maximized := maximized, wm_class := wm_class,
      title := ttl, icon := icon, need_redraw := true }
  (c,
    [Eff.create_window container_id c.container_x c.container_y
        (c.container_width env) (c.container_height env)]
    ++ (if !c.maximized then c.grab_buttons_on_container else [])
    ++ [Eff.add_to_save_set id,
        Eff.reparent_window id container_id c.inner_offset_x c.inner_offset_y,
        Eff.grab_button id 1, Eff.grab_button id 3,
        Eff.set_window_event_mask id,
        Eff.set_window_border_width id 0,
        Eff.put_wm_state_property id,
        Eff.surface_set_size container_id (c.container_width env)
          (c.container_height env)])

/-- `Client::set_x`. -/
def Client.set_x (_env : Env) (c : Client) (x : Int) : Client × List Eff :=
  let c' := { c with x := x }
  if !c'.maximized then (c', [Eff.set_window_x c'.container_id c'.container_x])
  else (c', [])

/-- `Client::set_y`. -/
def Client.set_y (_env : Env) (c : Client) (y : Int) : Client × List Eff :=
  let c' := { c with y := y }
  if !c'.maximized then (c', [Eff.set_window_y c'.container_id c'.container_y])
  else (c', [])

/-- `Client::set_size`. -/
def Client.set_size (env : Env) (c : Client) (width height : Nat) :
    Client × List Eff :=
  let c' := { c with width := width, height := height }
  if !c'.maximized then
    ({ c' with need_redraw := true },
     [Eff.set_window_width c'.id c'.width,
      Eff.set_window_height c'.id c'.height,
      Eff.set_window_width c'.container_id (c'.container_width env),
      Eff.set_window_height c'.container_id (c'.container_height env),
      Eff.surface_set_size c'.container_id (c'.container_width env)
        (c'.container_height env)])
  else (c', [])

/-- `Client::set_maximized`. -/
def Client.set_maximized (env : Env) (c : Client) (maximized : Bool) :
    Client × List Eff :=
  if maximized = c.maximized then (c, [])
  else
    let c' := { c with maximized := maximized }
    let effs :=
      [Eff.set_window_x c'.id c'.inner_offset_x,
       Eff.set_window_y c'.id c'.inner_offset_y,
       Eff.set_window_x c'.container_id c'.container_x,
       Eff.set_window_y c'.container_id c'.container_y,
       Eff.set_window_width c'.container_id (c'.container_width env),
       Eff.set_window_height c'.container_id (c'.container_height env),
       Eff.set_window_width c'.id
         (if maximized then c'.container_width env else c'.width),
       Eff.set_window_height c'.id
         (if maximized then c'.container_height env else c'.height)]
    if maximized then (c', effs ++ c'.ungrab_buttons_on_container)
    else ({ c' with need_redraw := true }, effs ++ c'.grab_buttons_on_container)

/-- `Client::set_class`. -/
def Client.set_class (c : Client) (wm_class : Option String) : Client :=
  { c with wm_class := wm_class }

/-- `Client::set_title`. -/
def Client.set_title (c : Client) (title : Option String) : Client :=
  { c with title := title, need_redraw := true }

/-- `Client::set_icon`. -/
def Client.set_icon (c : Client) (icon : Option Nat) : Client :=
  { c with icon := icon, need_redraw := true }

/-- `Client::notify`. -/
def Client.notify (c : Client) : Client := { c with need_redraw := true }

/-- `util::cycle_next` from src/util.rs. -/
def cycle_next {α : Type} (items : List α) (current : Nat) : Nat :=
  if current = items.length - 1 then 0 else current + 1

/-- `util::cycle_previous` from src/util.rs. -/
def cycle_previous {α : Type} (items : List α) (current : Nat) : Nat :=
  if current = 0 then items.length - 1 else current - 1

/-- C4: for a non-empty sequence and any index `i < N`, `cycle_previous`
undoes `cycle_next`, `cycle_next` wraps `N-1` to `0`, and `cycle_previous`
wraps `0` to `N-1`. -/
theorem cycle_next_previous_roundtrip {α : Type} (items : List α) (i : Nat)
    (hne : items ≠ []) (hi : i < items.length) :
    cycle_previous items (cycle_next items i) = i ∧
    cycle_next items (items.length - 1) = 0 ∧
    cycle_previous items 0 = items.length - 1 := by
  have hlen : 0 < items.length := List.length_pos.mpr hne
  unfold cycle_next cycle_previous
  refine ⟨?_, ?_, ?_⟩ <;> split_ifs <;>
    first
    | exact absurd rfl (by assumption)
    | exact (by assumption : False).elim
    | omega

/-- C4 witness at the concrete sequence `[10, 20, 30]` and index `1`. -/
theorem cycle_next_previous_roundtrip_witness :
    cycle_previous [10, 20, 30] (cycle_next [10, 20, 30] 1) = 1 ∧
    cycle_next [10, 20, 30] (([10, 20, 30] : List Nat).length - 1) = 0 ∧
    cycle_previous [10, 20, 30] 0 = ([10, 20, 30] : List Nat).length - 1 :=
  cycle_next_previous_roundtrip [10, 20, 30] 1 (by decide) (by decide)

/-- C6: toggling the maximized flag and toggling it back leaves the recorded
geometry fields `x`, `y`, `width`, `height` of the client unchanged, from any
starting value of the flag. -/
theorem set_maximized_double_toggle_preserves_geometry (env : Env) (c : Client) :
    ((Client.set_maximized env
        (Client.set_maximized env c (!c.maximized)).1 c.maximized).1.x = c.x) ∧
    ((Client.set_maximized env
        (Client.set_maximized env c (!c.maximized)).1 c.maximized).1.y = c.y) ∧
    ((Client.set_maximized env
        (Client.set_maximized env c (!c.maximized)).1 c.maximized).1.width = c.width) ∧
    ((Client.set_maximized env
        (Client.set_maximized env c (!c.maximized)).1 c.maximized).1.height = c.height) := by
  cases hm : c.maximized <;> simp [Client.set_maximized, hm]

/-- C7: `Client::set_size` on a maximized client records the new width and
height but issues no display-server commands and leaves every other field
(including `need_redraw`) unchanged. -/
theorem set_size_while_maximized (env : Env) (c : Client) (width height : Nat)
    (hmax : c.maximized = true) :
    Client.set_size env c width height =
      ({ c with width := width, height := height }, []) := by
  simp [Client.set_size, hmax]

/-- An arbitrary concrete environment used by witnesses. -/
def envW : Env :=
  { screen_width := 1920, screen_height := 1080,
    top_panel_id := 900, bottom_panel_id := 901,
    root_children := [],
    get_window_geometry := fun _ => { x := 0, y := 0, width := 0, height := 0 },
    get_window_attributes := fun _ =>
      { map_state_unmapped := false, override_redirect := false },
    get_window_class := fun _ => none,
    get_window_title := fun _ => none,
    get_window_icon := fun _ => none }

/-- A concrete maximized client used by the C7 witness. -/
def clientW : Client :=
  { id := 7, container_id := 8, x := 40, y := 50, width := 640, height := 480,
    maximized := true, wm_class := none, title := none, icon := none,
    need_redraw := false }

/-- C7 witness at a concrete maximized client. -/
theorem set_size_while_maximized_witness :
    Client.set_size envW clientW 333 222 =
      ({ clientW with width := 333, height := 222 }, []) :=
  set_size_while_maximized envW clientW 333 222 rfl

/-- C10: calling `Client::set_maximized` with the client's current flag value
is a complete no-op: the client is unchanged and no commands are issued. -/
theorem set_maximized_same_value_noop (env : Env) (c : Client) :
    Client.set_maximized env c c.maximized = (c, []) := by
  simp [Client.set_maximized]

/-- The `Workspace` struct of src/wm.rs.  `stack` and `tasklist` hold shared
`Rc<Client>` values in the source; every operation the core performs on the
tasklist reads only the client identity (`Client::id`), so the tasklist is
embedded as the list of client ids. -/
structure Workspace where
  stack : List Client
  tasklist : List Nat
deriving DecidableEq

instance : Inhabited Workspace := ⟨⟨[], []⟩⟩

/-- `DragKind` from src/wm.rs. -/
inductive DragKind where
  | move
  | resize
deriving DecidableEq

/-- `DragState` from src/wm.rs (`x`, `y` are `u16`). -/
structure DragState where
  kind : DragKind
  x : Nat
  y : Nat
deriving DecidableEq

/-- The mutable state of the `Wm` struct of src/wm.rs.  `workspaces` is a
fixed array of 9 in the source; `next_container_id` embeds the fresh ids
drawn from `Api::generate_id` when clients are constructed. -/
structure Wm where
  workspaces : List Workspace
  active_workspace_index : Nat
  drag_state : Option DragState
  next_container_id : Nat
deriving DecidableEq

/-- `Wm::active_workspace` (an out-of-range index panics in the source). -/
def Wm.active_workspace (s : Wm) : Workspace :=
  s.workspaces.getD s.active_workspace_index default

/-- Replace workspace `i` by `f` of its current value (in-place `RefCell`
mutation in the source). -/
def Wm.updWs (s : Wm) (i : Nat) (f : Workspace → Workspace) : Wm :=
  { s with workspaces := s.workspaces.set i (f (s.workspaces.getD i default)) }

/-- `if let Some(client) = stack.last() { client.notify() }`. -/
def notifyLast : List Client → List Client
  | [] => []
  | [c] => [c.notify]
  | c :: rest => c :: notifyLast rest

/-- `Vec::swap` (out-of-range indices panic in the source; the fallback arm
is unreachable from the call sites). -/
def listSwap {α : Type} (l : List α) (i j : Nat) : List α :=
  match l[i]?, l[j]? with
  | some a, some b => (l.set i b).set j a
  | _, _ => l

/-- The `find_map` over all workspaces used by unmap-notify, property-notify
and configure-request handling: the workspace index and stack index of the
first client whose id matches. -/
def findClient (window : Nat) : List Workspace → Option (Nat × Nat)
  | [] => none
  | w :: rest =>
    match w.stack.findIdx? (fun c => c.id == window) with
    | some si => some (0, si)
    | none => (findClient window rest).map (fun p => (p.1 + 1, p.2))

/-- The keycodes dispatched by `Wm::handle_key_press`.  src/keycode.rs is not
among the sources; only the constructors matched in src/wm.rs are modelled,
with `other` for every remaining keycode and `none` (in the event) for a
failing `Keycode::try_from`. -/
inductive Keycode where
  | escape
  | k
  | j
  | number1
  | number2
  | number3
  | number4
  | number5
  | number6
  | number7
  | number8
  | number9
  | right
  | left
  | x
  | m
  | other
deriving DecidableEq

/-- The property atoms distinguished by `Wm::handle_property_notify`. -/
inductive Atom where
  | wm_class
  | net_wm_name
  | net_wm_icon
  | other
deriving DecidableEq

/-- The event kinds dispatched by `Wm::handle_event`, with the fields each
handler reads. -/
inductive XEvent where
  | map_request (window : Nat)
  | unmap_notify (window : Nat)
  | key_press (keycode : Option Keycode) (shift : Bool)
  | button_press (event : Nat) (button : Nat) (mod4 : Bool)
      (event_x event_y root_x root_y : Int)
  | motion_notify (event : Nat) (root_x root_y : Int)
  | button_release
  | property_notify (window : Nat) (atom : Atom)
  | configure_request (window : Nat) (mask_width mask_height : Bool)
      (width height : Nat)
  | other
deriving DecidableEq

/-- `Wm::handle_map_request`. -/
def Wm.handle_map_request (env : Env) (s : Wm) (window : Nat) : Wm × List Eff :=
  let client_already_managed :=
    s.workspaces.any fun w => w.stack.any fun c => c.id == window
  if client_already_managed then (s, [])
  else
    let geometry := env.get_window_geometry window
    let maximized_width := env.screen_width
    let maximized_height :=
      env.screen_height - top_panel_PANEL_HEIGHT - bottom_panel_PANEL_HEIGHT
    let maximized := geometry.width == maximized_width
    let height_fix :=
      if maximized && !(geometry.height == maximized_height) then
        [Eff.set_window_height window maximized_height]
      else []
    let wh : Nat × Nat :=
      if maximized then (1000, 800) else (geometry.width, geometry.height)
    let x := Int.tdiv (u16ToI16 env.screen_width - u16ToI16 wh.1) 2
    let y := Int.tdiv
      (u16ToI16 env.screen_height + (top_panel_PANEL_HEIGHT : Int) - u16ToI16 wh.2) 2
    let cr :=
      Client.new env s.next_container_id window x y wh.1 wh.2 maximized
        (env.get_window_class window) (env.get_window_title window)
        (env.get_window_icon window)
    let ws := s.active_workspace
    let st : List Client × List Nat :=
      match ws.stack.getLast? with
      | some active_client =>
        let tasklist_index := ws.tasklist.findIdx (fun i => i == active_client.id)
        (notifyLast ws.stack, ws.tasklist.insertIdx (tasklist_index + 1) window)
      | none => (ws.stack, ws.tasklist ++ [window])
    let s' :=
      { s.updWs s.active_workspace_index (fun _ => ⟨st.1 ++ [cr.1], st.2⟩) with
        next_container_id := s.next_container_id + 1 }
    (s', height_fix ++ cr.2
      ++ [Eff.map_window cr.1.id, Eff.map_window cr.1.container_id,
          Eff.set_focus (some cr.1.id),
          Eff.raise_window env.top_panel_id, Eff.raise_window env.bottom_panel_id,
          Eff.top_panel_notify, Eff.bottom_panel_notify])

/-- `Wm::handle_unmap_notify`. -/
def Wm.handle_unmap_notify (_env : Env) (s : Wm) (window : Nat) : Wm × List Eff :=
  match findClient window s.workspaces with
  | none => (s, [])
  | some (workspace_index, client_stack_index) =>
    let ws := s.workspaces.getD workspace_index default
    let stack1 := ws.stack.eraseIdx client_stack_index
    let tasklist1 :=
      ws.tasklist.eraseIdx (ws.tasklist.findIdx (fun i => i == window))
    if workspace_index = s.active_workspace_index then
      (s.updWs workspace_index (fun _ => ⟨notifyLast stack1, tasklist1⟩),
       [Eff.top_panel_notify, Eff.set_focus ((stack1.getLast?).map Client.id),
        Eff.bottom_panel_notify])
    else
      (s.updWs workspace_index (fun _ => ⟨stack1, tasklist1⟩),
       [Eff.top_panel_notify])

/-- `Wm::raise_client`.  On an empty stack `clients.len() - 1` underflows and
the source panics; `Nat` subtraction instead takes the no-op branch, and an
out-of-range `remove` index (a panic in the source) is the `none` fallback.
Both are unreachable from the call sites. -/
def Wm.raise_client (env : Env) (s : Wm) (stack_index : Nat) : Wm × List Eff :=
  let clients := s.active_workspace.stack
  if stack_index = clients.length - 1 then (s, [])
  else
    match clients.get? stack_index with
    | none => (s, [])
    | some client =>
      (s.updWs s.active_workspace_index
         (fun w => { w with stack := (notifyLast (clients.eraseIdx stack_index) ++ [client.notify]) }),
       [Eff.raise_window client.container_id, Eff.raise_window env.top_panel_id,
        Eff.raise_window env.bottom_panel_id, Eff.set_focus (some client.id),
        Eff.bottom_panel_notify])

/-- `Wm::move_active_client_to_workspace`.  When `workspace_index` is the
active index and the stack is non-empty, the source double-borrows the same
`RefCell` and panics; the model gives that branch the sequential
read-after-update semantics. -/
def Wm.move_active_client_to_workspace (env : Env) (s : Wm) (workspace_index : Nat) :
    Wm × List Eff :=
  let ws := s.active_workspace
  match ws.stack.getLast? with
  | none => (s, [])
  | some client =>
    let stack1 := ws.stack.dropLast
    let tasklist1 :=
      ws.tasklist.eraseIdx (ws.tasklist.findIdx (fun i => i == client.id))
    let s1 := s.updWs s.active_workspace_index (fun _ => ⟨notifyLast stack1, tasklist1⟩)
    let s2 := s1.updWs workspace_index
      (fun w => ⟨w.stack ++ [client], w.tasklist ++ [client.id]⟩)
    (s2,
     [Eff.unmap_window client.container_id,
      Eff.raise_window client.container_id, Eff.raise_window env.top_panel_id,
      Eff.raise_window env.bottom_panel_id,
      Eff.set_focus ((stack1.getLast?).map Client.id),
      Eff.top_panel_notify, Eff.bottom_panel_notify])

/-- `Wm::move_active_client_forward_in_tasklist`. -/
def Wm.move_active_client_forward_in_tasklist (_env : Env) (s : Wm) : Wm × List Eff :=
  let ws := s.active_workspace
  match ws.stack.getLast? with
  | none => (s, [])
  | some active_client =>
    let i := ws.tasklist.findIdx (fun i => i == active_client.id)
    let ni := cycle_next ws.tasklist i
    (s.updWs s.active_workspace_index
       (fun w => { w with tasklist := listSwap w.tasklist i ni }),
     [Eff.top_panel_notify, Eff.bottom_panel_notify])

/-- `Wm::move_active_client_backward_in_tasklist`. -/
def Wm.move_active_client_backward_in_tasklist (_env : Env) (s : Wm) : Wm × List Eff :=
  let ws := s.active_workspace
  match ws.stack.getLast? with
  | none => (s, [])
  | some active_client =>
    let i := ws.tasklist.findIdx (fun i => i == active_client.id)
    let pi := cycle_previous ws.tasklist i
    (s.updWs s.active_workspace_index
       (fun w => { w with tasklist := listSwap w.tasklist i pi }),
     [Eff.top_panel_notify, Eff.bottom_panel_notify])

/-- `Wm::raise_next_tasklist_client` (the `unwrap`s are backed by the
stack/tasklist invariant at the call sites). -/
def Wm.raise_next_tasklist_client (env : Env) (s : Wm) : Wm × List Eff :=
  let ws := s.active_workspace
  match ws.stack.getLast? with
  | none => (s, [])
  | some active_client =>
    let i := ws.tasklist.findIdx (fun i => i == active_client.id)
    let ni := cycle_next ws.tasklist i
    let next_id := ws.tasklist.getD ni 0
    let si := ws.stack.findIdx (fun c => c.id == next_id)
    Wm.raise_client env s si

/-- `Wm::raise_previous_tasklist_client`. -/
def Wm.raise_previous_tasklist_client (env : Env) (s : Wm) : Wm × List Eff :=
  let ws := s.active_workspace
  match ws.stack.getLast? with
  | none => (s, [])
  | some active_client =>
    let i := ws.tasklist.findIdx (fun i => i == active_client.id)
    let pi := cycle_previous ws.tasklist i
    let previous_id := ws.tasklist.getD pi 0
    let si := ws.stack.findIdx (fun c => c.id == previous_id)
    Wm.raise_client env s si

/-- `Wm::change_active_workspace`. -/
def Wm.change_active_workspace (_env : Env) (s : Wm) (index : Nat) : Wm × List Eff :=
  if s.active_workspace_index = index then (s, [])
  else
    let ws := s.workspaces.getD index default
    let effs1 := (ws.stack.reverse).map (fun c => Eff.map_window c.container_id)
    let effs2 := [Eff.set_focus ((ws.stack.getLast?).map Client.id)]
    let effs3 := (s.active_workspace.stack).map (fun c => Eff.unmap_window c.container_id)
    let s1 := s.updWs index (fun w => { w with stack := w.stack.map Client.notify })
    ({ s1 with active_workspace_index := index },
     effs1 ++ effs2 ++ effs3 ++ [Eff.top_panel_notify, Eff.bottom_panel_notify])

/-- `Wm::handle_key_press`.  The Escape arm serializes the session and
re-execs the process (it never returns); its state is read-only, embedded as
the `save_state_and_restart` effect. -/
def Wm.handle_key_press (env : Env) (s : Wm) (keycode : Option Keycode)
    (shift : Bool) : Wm × List Eff :=
  match keycode with
  | none => (s, [])
  | some kc =>
    match kc, shift with
    | Keycode.escape, _ => (s, [Eff.save_state_and_restart])
    | Keycode.k, true => Wm.move_active_client_forward_in_tasklist env s
    | Keycode.j, true => Wm.move_active_client_backward_in_tasklist env s
    | Keycode.k, false => Wm.raise_next_tasklist_client env s
    | Keycode.j, false => Wm.raise_previous_tasklist_client env s
    | Keycode.number1, true => Wm.move_active_client_to_workspace env s 0
    | Keycode.number2, true => Wm.move_active_client_to_workspace env s 1
    | Keycode.number3, true => Wm.move_active_client_to_workspace env s 2
    | Keycode.number4, true => Wm.move_active_client_to_workspace env s 3
    | Keycode.number5, true => Wm.move_active_client_to_workspace env s 4
    | Keycode.number6, true => Wm.move_active_client_to_workspace env s 5
    | Keycode.number7, true => Wm.move_active_client_to_workspace env s 6
    | Keycode.number8, true => Wm.move_active_client_to_workspace env s 7
    | Keycode.number9, true => Wm.move_active_client_to_workspace env s 8
    | Keycode.number1, false => Wm.change_active_workspace env s 0
    | Keycode.number2, false => Wm.change_active_workspace env s 1
    | Keycode.number3, false => Wm.change_active_workspace env s 2
    | Keycode.number4, false => Wm.change_active_workspace env s 3
    | Keycode.number5, false => Wm.change_active_workspace env s 4
    | Keycode.number6, false => Wm.change_active_workspace env s 5
    | Keycode.number7, false => Wm.change_active_workspace env s 6
    | Keycode.number8, false => Wm.change_active_workspace env s 7
    | Keycode.number9, false => Wm.change_active_workspace env s 8
    | Keycode.right, _ =>
      Wm.change_active_workspace env s (cycle_next s.workspaces s.active_workspace_index)
    | Keycode.left, _ =>
      Wm.change_active_workspace env s (cycle_previous s.workspaces s.active_workspace_index)
    | Keycode.x, _ =>
      match s.active_workspace.stack.getLast? with
      | some client => (s, [Eff.ask_window_to_close client.id])
      | none => (s, [])
    | Keycode.m, _ =>
      match s.active_workspace.stack.getLast? with
      | some client =>
        let r := Client.set_maximized env client (!client.maximized)
        (s.updWs s.active_workspace_index
           (fun w => { w with stack := (w.stack.set (w.stack.length - 1) r.1) }), r.2)
      | none => (s, [])
    | Keycode.other, _ => (s, [])

/-- `Wm::handle_button_press`. -/
def Wm.handle_button_press (env : Env) (s : Wm) (event : Nat) (button : Nat)
    (mod4 : Bool) (event_x event_y root_x root_y : Int) : Wm × List Eff :=
  let clients := s.active_workspace.stack
  match clients.findIdx? (fun c => c.id == event || c.container_id == event) with
  | none => (s, [])
  | some client_index =>
    let on_container := (clients.getD client_index default).container_id == event
    if on_container && !(button == 1 || (button == 3 && mod4)) then (s, [])
    else
      let effs0 := if on_container then [] else [Eff.allow_pointer_events]
      let r1 := Wm.raise_client env s client_index
      match (r1.1.active_workspace.stack).getLast? with
      | none => (r1.1, effs0 ++ r1.2)
      | some client =>
        if client.maximized then (r1.1, effs0 ++ r1.2)
        else
          let ex := wrapU16 event_x
          let ey := wrapU16 event_y
          let on_titlebar :=
            (decide (BORDER_WIDTH ≤ ex) && decide (ex ≤ BORDER_WIDTH + client.width)) &&
            (decide (BORDER_WIDTH ≤ ey) && decide (ey ≤ BORDER_WIDTH + TITLEBAR_HEIGHT))
          if button == 1 && (mod4 || (on_container && on_titlebar)) then
            ({ r1.1 with drag_state := (
                some ⟨DragKind.move, wrapU16 root_x, wrapU16 root_y⟩) },
             effs0 ++ r1.2)
          else if button == 3 && mod4 then
            let px := wrapU16 (wrapI16 (client.x + u16ToI16 client.width))
            let py := wrapU16 (wrapI16 (client.y + u16ToI16 client.height))
            ({ r1.1 with drag_state := some ⟨DragKind.resize, px, py⟩ },
             effs0 ++ r1.2 ++ [Eff.move_pointer px py])
          else (r1.1, effs0 ++ r1.2)

/-- `Wm::handle_drag_move`. -/
def Wm.handle_drag_move (env : Env) (client : Client) (dx dy : Int) :
    Client × List Eff :=
  let r1 := Client.set_x env client (wrapI16 (client.x + dx))
  let r2 := Client.set_y env r1.1 (wrapI16 (r1.1.y + dy))
  (r2.1, r1.2 ++ r2.2)

/-- `Wm::handle_drag_resize`. -/
def Wm.handle_drag_resize (env : Env) (client : Client) (dx dy : Int) :
    Client × List Eff :=
  let width := wrapU16 (max (wrapI16 (u16ToI16 client.width + dx)) 1)
  let height := wrapU16 (max (wrapI16 (u16ToI16 client.height + dy)) 1)
  Client.set_size env client width height

/-- `Wm::handle_motion_notify`. -/
def Wm.handle_motion_notify (env : Env) (s : Wm) (event : Nat)
    (root_x root_y : Int) : Wm × List Eff :=
  match s.drag_state with
  | none => (s, [])
  | some state =>
    let clients := s.active_workspace.stack
    match clients.findIdx? (fun c => c.id == event || c.container_id == event) with
    | none => (s, [])
    | some idx =>
      let client := clients.getD idx default
      let dx := wrapI16 (root_x - u16ToI16 state.x)
      let dy := wrapI16 (root_y - u16ToI16 state.y)
      let r := match state.kind with
        | DragKind.move => Wm.handle_drag_move env client dx dy
        | DragKind.resize => Wm.handle_drag_resize env client dx dy
      ({ s.updWs s.active_workspace_index
           (fun w => { w with stack := w.stack.set idx r.1 }) with
         drag_state := some ⟨state.kind, wrapU16 root_x, wrapU16 root_y⟩ }, r.2)

/-- `Wm::handle_property_notify`. -/
def Wm.handle_property_notify (env : Env) (s : Wm) (window : Nat) (atom : Atom) :
    Wm × List Eff :=
  match findClient window s.workspaces with
  | none => (s, [])
  | some (workspace_index, client_stack_index) =>
    let ws := s.workspaces.getD workspace_index default
    let client := ws.stack.getD client_stack_index default
    match atom with
    | Atom.wm_class =>
      (s.updWs workspace_index (fun w =>
         { w with stack := (w.stack.set client_stack_index
             (client.set_class (env.get_window_class client.id))) }),
       [Eff.top_panel_notify])
    | Atom.net_wm_name =>
      (s.updWs workspace_index (fun w =>
         { w with stack := (w.stack.set client_stack_index
             (client.set_title (env.get_window_title client.id))) }),
       if workspace_index = s.active_workspace_index then [Eff.bottom_panel_notify]
       else [])
    | Atom.net_wm_icon =>
      (s.updWs workspace_index (fun w =>
         { w with stack := (w.stack.set client_stack_index
             (client.set_icon (env.get_window_icon client.id))) }),
       if workspace_index = s.active_workspace_index then [Eff.bottom_panel_notify]
       else [])
    | Atom.other => (s, [])

/-- `Wm::handle_configure_request` (the `dbg!` logging of the source is not a
display-server command and is not traced). -/
def Wm.handle_configure_request (env : Env) (s : Wm) (window : Nat)
    (mask_width mask_height : Bool) (width height : Nat) : Wm × List Eff :=
  match findClient window s.workspaces with
  | none => (s, [Eff.allow_configure_request window])
  | some (workspace_index, client_stack_index) =>
    if !mask_width && !mask_height then (s, [])
    else
      let ws := s.workspaces.getD workspace_index default
      let client := ws.stack.getD client_stack_index default
      let r := Client.set_size env client width height
      (s.updWs workspace_index (fun w =>
         { w with stack := w.stack.set client_stack_index r.1 }), r.2)

/-- `SerializedClient` from src/wm.rs. -/
structure SerializedClient where
  id : Nat
  x : Int
  y : Int
  width : Nat
  height : Nat
  maximized : Bool
deriving DecidableEq

/-- `SerializedWorkspace` from src/wm.rs. -/
structure SerializedWorkspace where
  stack : List SerializedClient
  tasklist : List Nat
deriving DecidableEq

instance : Inhabited SerializedWorkspace := ⟨⟨[], []⟩⟩

/-- `ExistingClientInfo` from src/wm.rs. -/
inductive ExistingClientInfo where
  | byId (id : Nat)
  | serialized (client : SerializedClient)

/-- The maximized heuristic applied to live-queried geometry by
`Wm::manage_existing_client` (width AND height must match). -/
def existing_client_maximized (env : Env) (geometry : Geometry) : Bool :=
  geometry.width == env.screen_width &&
    geometry.height ==
      env.screen_height - top_panel_PANEL_HEIGHT - bottom_panel_PANEL_HEIGHT

/-- The maximized heuristic applied to queried geometry by
`Wm::handle_map_request` (width match only). -/
def map_request_maximized (env : Env) (geometry : Geometry) : Bool :=
  geometry.width == env.screen_width

/-- `Wm::manage_existing_client`. -/
def Wm.manage_existing_client (env : Env) (container_id : Nat)
    (info : ExistingClientInfo) : Option (Client × List Eff) :=
  let id := match info with
    | ExistingClientInfo.byId i => i
    | ExistingClientInfo.serialized client => client.id
  let attrs := env.get_window_attributes id
  if attrs.map_state_unmapped then none
  else if attrs.override_redirect then none
  else
    let (x, y, width, height, maximized) :
        Int × Int × Nat × Nat × Bool :=
      match info with
      | ExistingClientInfo.byId id' =>
        let geometry := env.get_window_geometry id'
        (geometry.x, geometry.y, geometry.width, geometry.height,
         existing_client_maximized env geometry)
      | ExistingClientInfo.serialized client =>
        (client.x, client.y, client.width, client.height, client.maximized)
    some (Client.new env container_id id x y width height maximized
      (env.get_window_class id) (env.get_window_title id)
      (env.get_window_icon id))

/-- The serialized-stack adoption loop of `Wm::init` for one workspace.  It
threads the set of existing window ids (an id is claimed and removed from
the set before the attributes check, exactly as `HashSet::remove` in the
source) and the fresh container-id counter. -/
def adoptSerializedStack (env : Env) (is_active : Bool) :
    List SerializedClient → List Nat → Nat →
    List Client × List Nat × Nat × List Eff
  | [], existing, cid => ([], existing, cid, [])
  | sc :: rest, existing, cid =>
    if sc.id ∈ existing then
      let existing1 := existing.erase sc.id
      match Wm.manage_existing_client env cid (ExistingClientInfo.serialized sc) with
      | none => adoptSerializedStack env is_active rest existing1 cid
      | some (client, effs) =>
        let map_effs := if is_active then [Eff.map_window client.container_id] else []
        let r := adoptSerializedStack env is_active rest existing1 (cid + 1)
        (client :: r.1, r.2.1, r.2.2.1, effs ++ map_effs ++ r.2.2.2)
    else
      adoptSerializedStack env is_active rest existing cid

/-- The tasklist rebuild of `Wm::init`: every serialized tasklist id that is
found in that workspace's adopted stack is pushed (in serialized order). -/
def rebuildTasklist (stack : List Client) (ids : List Nat) : List Nat :=
  ids.filter (fun id => stack.any (fun c => c.id == id))

/-- The per-workspace loop of `Wm::init` over the zipped serialized
workspaces, threading the existing-id set and the container-id counter. -/
def initWorkspaces (env : Env) (active_index : Nat) :
    List SerializedWorkspace → Nat → List Nat → Nat →
    List Workspace × List Nat × Nat × List Eff
  | [], _, existing, cid => ([], existing, cid, [])
  | sw :: rest, wi, existing, cid =>
    let r := adoptSerializedStack env (wi == active_index) sw.stack existing cid
    let tasklist := rebuildTasklist r.1 sw.tasklist
    let rr := initWorkspaces env active_index rest (wi + 1) r.2.1 r.2.2.1
    (⟨r.1, tasklist⟩ :: rr.1, rr.2.1, rr.2.2.1, r.2.2.2 ++ rr.2.2.2)

/-- The leftover loop of `Wm::init`: every id still in the existing set is
adopted from live-queried geometry into the active workspace. -/
def adoptLeftovers (env : Env) :
    List Nat → Nat → List Client × Nat × List Eff
  | [], cid => ([], cid, [])
  | id :: rest, cid =>
    match Wm.manage_existing_client env cid (ExistingClientInfo.byId id) with
    | none => adoptLeftovers env rest cid
    | some (client, effs) =>
      let r := adoptLeftovers env rest (cid + 1)
      (client :: r.1, r.2.1, effs ++ [Eff.map_window client.container_id] ++ r.2.2)

/-- `Wm::init` (together with the surrounding `Wm::new`).  The leftover
`HashSet` iterates in unspecified order in the source; the model fixes the
(deduplicated) order of `Api::get_window_children`.  An
`active_workspace_index` outside the workspace array panics in the source;
in the model the leftover clients are then adopted but attached to no
workspace (`List.set` out of range), a branch unreachable from a welformed
session file. -/
def Wm.init (env : Env) (serialized_workspaces : List SerializedWorkspace)
    (active_workspace_index : Nat) : Wm × List Eff :=
  let existing0 := env.root_children.dedup
  let r := initWorkspaces env active_workspace_index serialized_workspaces 0 existing0 1
  let lr := adoptLeftovers env r.2.1 r.2.2.1
  let aw := r.1.getD active_workspace_index default
  let workspaces1 := r.1.set active_workspace_index
    ⟨aw.stack ++ lr.1, aw.tasklist ++ lr.1.map Client.id⟩
  let s : Wm :=
    { workspaces := workspaces1,
      active_workspace_index := active_workspace_index,
      drag_state := none,
      next_container_id := lr.2.1 }
  (s, r.2.2.2 ++ lr.2.2
    ++ [Eff.set_focus ((s.active_workspace.stack.getLast?).map Client.id)])

/-- `Wm::handle_event`. -/
def Wm.handle_event (env : Env) (s : Wm) (event : XEvent) : Wm × List Eff :=
  match event with
  | XEvent.map_request window => Wm.handle_map_request env s window
  | XEvent.unmap_notify window => Wm.handle_unmap_notify env s window
  | XEvent.key_press keycode shift => Wm.handle_key_press env s keycode shift
  | XEvent.button_press e b m ex ey rx ry =>
    Wm.handle_button_press env s e b m ex ey rx ry
  | XEvent.motion_notify e rx ry => Wm.handle_motion_notify env s e rx ry
  | XEvent.button_release => ({ s with drag_state := none }, [])
  | XEvent.property_notify w a => Wm.handle_property_notify env s w a
  | XEvent.configure_request w mw mh ww hh =>
    Wm.handle_configure_request env s w mw mh ww hh
  | XEvent.other => (s, [])

/-- A 9-workspace state with empty workspaces, used by witnesses. -/
def wm0 : Wm :=
  { workspaces := List.replicate 9 default,
    active_workspace_index := 0, drag_state := none, next_container_id := 1 }

/-- A concrete non-maximized client (id 1, container 2). -/
def clientA : Client :=
  { id := 1, container_id := 2, x := 10, y := 20, width := 100, height := 100,
    maximized := false, wm_class := none, title := none, icon := none,
    need_redraw := false }

/-- A concrete non-maximized client (id 3, container 4). -/
def clientB : Client :=
  { id := 3, container_id := 4, x := 30, y := 40, width := 200, height := 150,
    maximized := false, wm_class := none, title := none, icon := none,
    need_redraw := false }

/-- A state whose active workspace holds `clientA` below `clientB`. -/
def wmAB : Wm :=
  { workspaces := ⟨[clientA, clientB], [1, 3]⟩ :: List.replicate 8 default,
    active_workspace_index := 0, drag_state := none, next_container_id := 10 }

/-- C9: `Wm::move_active_client_to_workspace` on an empty active stack
changes nothing and issues no commands, for any destination index. -/
theorem move_active_client_to_workspace_empty_noop (env : Env) (s : Wm) (d : Nat)
    (h : s.active_workspace.stack = []) :
    Wm.move_active_client_to_workspace env s d = (s, []) := by
  simp [Wm.move_active_client_to_workspace, h]

/-- C9 witness: moving from the empty active workspace of `wm0` to workspace
5 is a no-op. -/
theorem move_active_client_to_workspace_empty_noop_witness :
    Wm.move_active_client_to_workspace envW wm0 5 = (wm0, []) :=
  move_active_client_to_workspace_empty_noop envW wm0 5 rfl

/-- C5: raising the topmost client of a non-empty stack is a no-op with no
commands; raising any lower client removes it, marks the new last (former
topmost) dirty, re-appends the removed client marked dirty, issues
raise/focus commands for it, and notifies the bottom panel; the tasklist is
untouched. -/
theorem raise_client_spec (env : Env) (s : Wm) (i : Nat)
    (hne : s.active_workspace.stack ≠ []) :
    (i = s.active_workspace.stack.length - 1 →
      Wm.raise_client env s i = (s, [])) ∧
    (∀ c, (s.active_workspace.stack)[i]? = some c →
      i < s.active_workspace.stack.length - 1 →
      Wm.raise_client env s i =
        (s.updWs s.active_workspace_index (fun w =>
           { w with stack :=
               (notifyLast (s.active_workspace.stack.eraseIdx i) ++ [c.notify]) }),
         [Eff.raise_window c.container_id, Eff.raise_window env.top_panel_id,
          Eff.raise_window env.bottom_panel_id, Eff.set_focus (some c.id),
          Eff.bottom_panel_notify])) := by
  constructor
  · intro h
    simp [Wm.raise_client, h]
  · intro c hc hlt
    have hne' : i ≠ s.active_workspace.stack.length - 1 := Nat.ne_of_lt hlt
    simp [Wm.raise_client, hne', hc]

/-- C5 witness: in `wmAB`, raising index 1 (already topmost) is a no-op and
raising index 0 produces exactly the documented state and commands. -/
theorem raise_client_spec_witness :
    Wm.raise_client envW wmAB 1 = (wmAB, []) ∧
    Wm.raise_client envW wmAB 0 =
      (wmAB.updWs wmAB.active_workspace_index (fun w =>
         { w with stack :=
             (notifyLast (wmAB.active_workspace.stack.eraseIdx 0) ++ [clientA.notify]) }),
       [Eff.raise_window clientA.container_id, Eff.raise_window envW.top_panel_id,
        Eff.raise_window envW.bottom_panel_id, Eff.set_focus (some clientA.id),
        Eff.bottom_panel_notify]) :=
  ⟨(raise_client_spec envW wmAB 1 (by decide)).1 (by decide),
   (raise_client_spec envW wmAB 0 (by decide)).2 clientA (by decide) (by decide)⟩

/-- C8: a configure-request for an unmanaged window is forwarded verbatim
with no state change; for a managed window with a width or height bit set,
the client's `set_size` is applied with the requested width and height; for
a managed window with neither bit set, nothing happens at all. -/
theorem handle_configure_request_spec (env : Env) (s : Wm) (window : Nat)
    (mask_width mask_height : Bool) (width height : Nat) :
    (findClient window s.workspaces = none →
      Wm.handle_configure_request env s window mask_width mask_height width height =
        (s, [Eff.allow_configure_request window])) ∧
    (∀ wi si, findClient window s.workspaces = some (wi, si) →
      (mask_width = true ∨ mask_height = true) →
      Wm.handle_configure_request env s window mask_width mask_height width height =
        (s.updWs wi (fun w =>
           { w with stack := (w.stack.set si
               (Client.set_size env
                 ((s.workspaces.getD wi default).stack.getD si default)
                 width height).1) }),
         (Client.set_size env
           ((s.workspaces.getD wi default).stack.getD si default) width height).2)) ∧
    (∀ wi si, findClient window s.workspaces = some (wi, si) →
      mask_width = false → mask_height = false →
      Wm.handle_configure_request env s window mask_width mask_height width height =
        (s, [])) := by
  refine ⟨?_, ?_, ?_⟩
  · intro h
    simp [Wm.handle_configure_request, h]
  · intro wi si h hmask
    rcases hmask with hm | hm <;>
      simp [Wm.handle_configure_request, h, hm]
  · intro wi si h hw hh
    simp [Wm.handle_configure_request, h, hw, hh]

/-- C8 witness: in `wmAB`, window 99 is unmanaged (forwarded verbatim),
window 3 with the width bit honours the requested size via `set_size`, and
window 3 with neither bit is dropped. -/
theorem handle_configure_request_spec_witness :
    Wm.handle_configure_request envW wmAB 99 true true 640 480 =
      (wmAB, [Eff.allow_configure_request 99]) ∧
    Wm.handle_configure_request envW wmAB 3 true false 640 480 =
      (wmAB.updWs 0 (fun w =>
         { w with stack := (w.stack.set 1
             (Client.set_size envW
               ((wmAB.workspaces.getD 0 default).stack.getD 1 default)
               640 480).1) }),
       (Client.set_size envW
         ((wmAB.workspaces.getD 0 default).stack.getD 1 default) 640 480).2) ∧
    Wm.handle_configure_request envW wmAB 3 false false 640 480 = (wmAB, []) :=
  ⟨(handle_configure_request_spec envW wmAB 99 true true 640 480).1 (by decide),
   (handle_configure_request_spec envW wmAB 3 true false 640 480).2.1 0 1
     (by decide) (Or.inl rfl),
   (handle_configure_request_spec envW wmAB 3 false false 640 480).2.2 0 1
     (by decide) rfl rfl⟩

theorem wrapI16_eq_self (z : Int) (h1 : -32768 ≤ z) (h2 : z ≤ 32767) :
    wrapI16 z = z := by
  unfold wrapI16
  omega

theorem wrapU16_eq_toNat (z : Int) (h1 : 0 ≤ z) (h2 : z ≤ 65535) :
    wrapU16 z = z.toNat := by
  unfold wrapU16
  omega

theorem set_size_fst_width (env : Env) (c : Client) (w h : Nat) :
    (Client.set_size env c w h).1.width = w := by
  cases hm : c.maximized <;> simp [Client.set_size, hm]

theorem set_size_fst_height (env : Env) (c : Client) (w h : Nat) :
    (Client.set_size env c w h).1.height = h := by
  cases hm : c.maximized <;> simp [Client.set_size, hm]

theorem drag_move_fst_x (env : Env) (c : Client) (x' y' : Int) :
    (Client.set_y env (Client.set_x env c x').1 y').1.x = (Client.set_x env c x').1.x := by
  cases hm : (Client.set_x env c x').1.maximized <;>
    simp [Client.set_y, hm]

/-- A concrete non-maximized 100 by 100 client (id 5, container 6) used by
the C2 resize scenario. -/
def clientC : Client :=
  { id := 5, container_id := 6, x := 200, y := 200, width := 100, height := 100,
    maximized := false, wm_class := none, title := none, icon := none,
    need_redraw := false }

/-- A state holding `clientC` with a resize drag in progress whose recorded
pointer position is `(500, 500)`. -/
def wmDrag : Wm :=
  { workspaces := ⟨[clientC], [5]⟩ :: List.replicate 8 default,
    active_workspace_index := 0,
    drag_state := some ⟨DragKind.resize, 500, 500⟩,
    next_container_id := 10 }

/-- C2: while a drag is in progress, a motion-notify event applies the delta
between the event's root position and the previously recorded `DragState`
position through the per-kind drag handler and then records the event's root
position in the `DragState`; a Resize drag adds the delta to width and
height, clamping each at a minimum of 1; a Move drag adds the delta to x and
y; and the concrete Resize scenario from `(100, 100)` with deltas `(+50, 0)`
then `(0, -80)` ends at `(150, 20)`, while a delta of `-200` yields width 1. -/
theorem motion_notify_incremental_drag :
    (∀ (env : Env) (s : Wm) (event : Nat) (root_x root_y : Int)
       (kind : DragKind) (px py : Nat) (idx : Nat) (c : Client),
       s.drag_state = some ⟨kind, px, py⟩ →
       (s.active_workspace.stack).findIdx?
           (fun c => c.id == event || c.container_id == event) = some idx →
       (s.active_workspace.stack).getD idx default = c →
       -32768 ≤ root_x - u16ToI16 px → root_x - u16ToI16 px ≤ 32767 →
       -32768 ≤ root_y - u16ToI16 py → root_y - u16ToI16 py ≤ 32767 →
       0 ≤ root_x → root_x ≤ 32767 → 0 ≤ root_y → root_y ≤ 32767 →
       Wm.handle_motion_notify env s event root_x root_y =
         ({ s.updWs s.active_workspace_index
              (fun w => { w with stack := (w.stack.set idx
                 (match kind with
                  | DragKind.move => Wm.handle_drag_move env c
                      (root_x - u16ToI16 px) (root_y - u16ToI16 py)
                  | DragKind.resize => Wm.handle_drag_resize env c
                      (root_x - u16ToI16 px) (root_y - u16ToI16 py)).1) }) with
            drag_state := some ⟨kind, root_x.toNat, root_y.toNat⟩ },
          (match kind with
           | DragKind.move => Wm.handle_drag_move env c
               (root_x - u16ToI16 px) (root_y - u16ToI16 py)
           | DragKind.resize => Wm.handle_drag_resize env c
               (root_x - u16ToI16 px) (root_y - u16ToI16 py)).2)) ∧
    (∀ (env : Env) (c : Client) (dx dy : Int),
       -32768 ≤ u16ToI16 c.width + dx → u16ToI16 c.width + dx ≤ 32767 →
       -32768 ≤ u16ToI16 c.height + dy → u16ToI16 c.height + dy ≤ 32767 →
       (Wm.handle_drag_resize env c dx dy).1.width =
           (max (u16ToI16 c.width + dx) 1).toNat ∧
       (Wm.handle_drag_resize env c dx dy).1.height =
           (max (u16ToI16 c.height + dy) 1).toNat ∧
       1 ≤ (Wm.handle_drag_resize env c dx dy).1.width ∧
       1 ≤ (Wm.handle_drag_resize env c dx dy).1.height) ∧
    (∀ (env : Env) (c : Client) (dx dy : Int),
       -32768 ≤ c.x + dx → c.x + dx ≤ 32767 →
       -32768 ≤ c.y + dy → c.y + dy ≤ 32767 →
       (Wm.handle_drag_move env c dx dy).1.x = c.x + dx ∧
       (Wm.handle_drag_move env c dx dy).1.y = c.y + dy) ∧
    ((Wm.handle_motion_notify envW
        (Wm.handle_motion_notify envW wmDrag 6 550 500).1 6 550 420).1.active_workspace.stack.map
        (fun c => (c.width, c.height)) = [(150, 20)]) ∧
    ((Wm.handle_motion_notify envW wmDrag 6 300 500).1.active_workspace.stack.map
        Client.width = [1]) := by
  refine ⟨?_, ?_, ?_, by decide, by decide⟩
  · intro env s event root_x root_y kind px py idx c hdrag hfind hget h1 h2 h3 h4 h5 h6 h7 h8
    have hdx : wrapI16 (root_x - u16ToI16 px) = root_x - u16ToI16 px :=
      wrapI16_eq_self _ h1 h2
    have hdy : wrapI16 (root_y - u16ToI16 py) = root_y - u16ToI16 py :=
      wrapI16_eq_self _ h3 h4
    have hrx : wrapU16 root_x = root_x.toNat := wrapU16_eq_toNat _ h5 (by omega)
    have hry : wrapU16 root_y = root_y.toNat := wrapU16_eq_toNat _ h7 (by omega)
    rw [List.getD_eq_getElem?_getD] at hget
    cases kind <;>
      simp [Wm.handle_motion_notify, hdrag, hfind, hget, hdx, hdy, hrx, hry]
  · intro env c dx dy h1 h2 h3 h4
    have hw : wrapI16 (u16ToI16 c.width + dx) = u16ToI16 c.width + dx :=
      wrapI16_eq_self _ h1 h2
    have hh : wrapI16 (u16ToI16 c.height + dy) = u16ToI16 c.height + dy :=
      wrapI16_eq_self _ h3 h4
    have hwmax : wrapU16 (max (u16ToI16 c.width + dx) 1) =
        (max (u16ToI16 c.width + dx) 1).toNat :=
      wrapU16_eq_toNat _ (by omega) (by omega)
    have hhmax : wrapU16 (max (u16ToI16 c.height + dy) 1) =
        (max (u16ToI16 c.height + dy) 1).toNat :=
      wrapU16_eq_toNat _ (by omega) (by omega)
    refine ⟨?_, ?_, ?_, ?_⟩ <;>
      simp [Wm.handle_drag_resize, hw, hh, hwmax, hhmax,
        set_size_fst_width, set_size_fst_height] <;>
      omega
  · intro env c dx dy h1 h2 h3 h4
    have hx : wrapI16 (c.x + dx) = c.x + dx := wrapI16_eq_self _ h1 h2
    constructor
    · rw [Wm.handle_drag_move]
      simp only [drag_move_fst_x]
      cases hm : c.maximized <;> simp [Client.set_x, hm, hx]
    · rw [Wm.handle_drag_move]
      cases hm : (Client.set_x env c (wrapI16 (c.x + dx))).1.maximized <;>
        simp [Client.set_y, hm] <;>
        · have : (Client.set_x env c (wrapI16 (c.x + dx))).1.y = c.y := by
            cases hm2 : c.maximized <;> simp [Client.set_x, hm2]
          rw [this, wrapI16_eq_self _ h3 h4]

/-- C2 witness: the general motion-notify theorem applied to the concrete
resize drag of `wmDrag` at root position `(550, 500)`. -/
theorem motion_notify_incremental_drag_witness :
    Wm.handle_motion_notify envW wmDrag 6 550 500 =
      ({ wmDrag.updWs wmDrag.active_workspace_index
           (fun w => { w with stack := (w.stack.set 0
              (Wm.handle_drag_resize envW clientC
                (550 - u16ToI16 500) (500 - u16ToI16 500)).1) }) with
         drag_state := some ⟨DragKind.resize, (550 : Int).toNat, (500 : Int).toNat⟩ },
       (Wm.handle_drag_resize envW clientC
         (550 - u16ToI16 500) (500 - u16ToI16 500)).2) :=
  motion_notify_incremental_drag.1 envW wmDrag 6 550 500 DragKind.resize 500 500 0
    clientC rfl (by decide) (by decide) (by decide) (by decide) (by decide)
    (by decide) (by decide) (by decide) (by decide) (by decide)

/-- An environment whose window 7 reports geometry 1920 by 500 on a 1920 by
1080 screen: full width but not full usable height. -/
def envC : Env :=
  { envW with get_window_geometry := fun _ => { x := 0, y := 0, width := 1920, height := 500 } }

/-- C3 counterexample: on `envC` the startup heuristic and the map-request
heuristic disagree about window 7 (full screen width, height 500): startup
reconciliation adopts it non-maximized while map-request handling classifies
it maximized.  The claim that the two predicates are identical is false. -/
theorem startup_vs_map_request_maximized_counterexample :
    existing_client_maximized envC (envC.get_window_geometry 7) ≠
      map_request_maximized envC (envC.get_window_geometry 7) ∧
    (Wm.manage_existing_client envC 0 (ExistingClientInfo.byId 7)).map
        (fun p => p.1.maximized) = some false ∧
    (Wm.handle_map_request envC wm0 7).1.active_workspace.stack.map
        Client.maximized = [true] := by
  decide

/-- C3 amended: the startup heuristic is the map-request heuristic (exact
width match) conjoined with an exact usable-height match; it therefore
implies the map-request classification but is strictly stronger.  The third
and fourth parts tie the two predicates to the client each code path
actually constructs. -/
theorem startup_vs_map_request_maximized_refinement :
    (∀ (env : Env) (g : Geometry),
      existing_client_maximized env g =
        (map_request_maximized env g &&
          (g.height ==
            env.screen_height - top_panel_PANEL_HEIGHT - bottom_panel_PANEL_HEIGHT))) ∧
    (∀ (env : Env) (g : Geometry),
      existing_client_maximized env g = true → map_request_maximized env g = true) ∧
    (∀ (env : Env) (cid id : Nat) (cl : Client) (effs : List Eff),
      Wm.manage_existing_client env cid (ExistingClientInfo.byId id) = some (cl, effs) →
      cl.maximized = existing_client_maximized env (env.get_window_geometry id)) ∧
    (∀ (env : Env) (s : Wm) (window : Nat),
      (s.workspaces.any fun w => w.stack.any fun c => c.id == window) = false →
      s.active_workspace_index < s.workspaces.length →
      ((Wm.handle_map_request env s window).1.active_workspace.stack.getLast?).map
          Client.maximized =
        some (map_request_maximized env (env.get_window_geometry window))) := by
  refine ⟨?_, ?_, ?_, ?_⟩
  · intro env g
    simp [existing_client_maximized, map_request_maximized]
  · intro env g h
    simp only [existing_client_maximized, Bool.and_eq_true] at h
    simpa [map_request_maximized] using h.1
  · intro env cid id cl effs h
    rw [Wm.manage_existing_client] at h
    by_cases h1 : (env.get_window_attributes id).map_state_unmapped
    · simp [h1] at h
    · by_cases h2 : (env.get_window_attributes id).override_redirect
      · simp [h1, h2] at h
      · simp [h1, h2, Client.new] at h
        rw [← h.1]
  · intro env s window hunmanaged hidx
    rw [Wm.handle_map_request]
    simp only [hunmanaged, Bool.false_eq_true, if_false]
    rw [Wm.active_workspace, Wm.updWs]
    simp only [List.getD_eq_getElem?_getD, List.getElem?_set_self, hidx]
    simp [map_request_maximized, Client.new]

/-- C3 witness: the refinement theorem applied to the concrete environment
`envC` (window 7 full-width but height 500): the startup path adopts it with
its height-aware heuristic value, and the map-request path classifies it by
width only. -/
theorem startup_vs_map_request_maximized_refinement_witness :
    (Client.new envC 0 7 0 0 1920 500
       (existing_client_maximized envC (envC.get_window_geometry 7))
       (envC.get_window_class 7) (envC.get_window_title 7)
       (envC.get_window_icon 7)).1.maximized =
      existing_client_maximized envC (envC.get_window_geometry 7) ∧
    ((Wm.handle_map_request envC wm0 7).1.active_workspace.stack.getLast?).map
        Client.maximized =
      some (map_request_maximized envC (envC.get_window_geometry 7)) :=
  ⟨startup_vs_map_request_maximized_refinement.2.2.1 envC 0 7 _ _ rfl,
   startup_vs_map_request_maximized_refinement.2.2.2 envC wm0 7 (by decide)
     (by decide)⟩

/-- The spec invariant for one workspace: stack and tasklist hold the same
client identities, each without duplicates. -/
def Workspace.consistent (w : Workspace) : Prop :=
  (w.stack.map Client.id).Nodup ∧ w.tasklist.Nodup ∧
  (∀ i ∈ w.stack.map Client.id, i ∈ w.tasklist) ∧
  (∀ i ∈ w.tasklist, i ∈ w.stack.map Client.id)

instance (w : Workspace) : Decidable w.consistent := by
  unfold Workspace.consistent
  infer_instance

/-- All workspaces of a state satisfy the invariant. -/
def Wm.consistent (s : Wm) : Prop := ∀ w ∈ s.workspaces, w.consistent

instance (s : Wm) : Decidable s.consistent := by
  unfold Wm.consistent
  infer_instance

/-- No client identity occurs in the stacks of two different workspaces
(true of every reachable state; needed because a cross-workspace move pushes
the moved client into the destination stack unconditionally). -/
def Wm.globallyNodup (s : Wm) : Prop :=
  (s.workspaces.map (fun w => w.stack.map Client.id)).flatten.Nodup

instance (s : Wm) : Decidable s.globallyNodup := by
  unfold Wm.globallyNodup
  infer_instance

theorem consistent_iff_perm (w : Workspace) :
    w.consistent ↔
      (w.stack.map Client.id).Nodup ∧ (w.stack.map Client.id).Perm w.tasklist := by
  constructor
  · rintro ⟨h1, h2, h3, h4⟩
    exact ⟨h1, (List.perm_ext_iff_of_nodup h1 h2).2 (fun a => ⟨h3 a, h4 a⟩)⟩
  · rintro ⟨h1, hp⟩
    exact ⟨h1, hp.nodup h1, fun a ha => hp.mem_iff.1 ha, fun a ha => hp.mem_iff.2 ha⟩

theorem default_workspace_consistent : Workspace.consistent default := by
  refine ⟨List.nodup_nil, List.nodup_nil, ?_, ?_⟩ <;> simp [default]

theorem consistent_of_stack_perm {w : Workspace} {stack' : List Client}
    (hperm : (stack'.map Client.id).Perm (w.stack.map Client.id))
    (hw : w.consistent) : Workspace.consistent ⟨stack', w.tasklist⟩ := by
  rw [consistent_iff_perm] at hw ⊢
  exact ⟨hperm.symm.nodup hw.1, hperm.trans hw.2⟩

theorem consistent_of_tasklist_perm {w : Workspace} {tl' : List Nat}
    (hperm : tl'.Perm w.tasklist) (hw : w.consistent) :
    Workspace.consistent ⟨w.stack, tl'⟩ := by
  rw [consistent_iff_perm] at hw ⊢
  exact ⟨hw.1, hw.2.trans hperm.symm⟩

theorem forall_mem_set {α : Type} {P : α → Prop} {l : List α} {i : Nat} {w : α}
    (hl : ∀ x ∈ l, P x) (hw : P w) : ∀ x ∈ l.set i w, P x := by
  intro x hx
  rcases List.mem_or_eq_of_mem_set hx with h | h
  · exact hl x h
  · exact h ▸ hw

theorem consistent_getD {s : Wm} (h : Wm.consistent s) (i : Nat) :
    Workspace.consistent (s.workspaces.getD i default) := by
  rw [List.getD_eq_getElem?_getD]
  rcases hlt : (s.workspaces)[i]? with _ | w
  · exact default_workspace_consistent
  · exact h w (by
      have := List.getElem?_eq_some_iff.1 hlt
      rcases this with ⟨hl, hw⟩
      exact hw ▸ List.getElem_mem hl)

theorem notifyLast_map_id : ∀ (l : List Client),
    (notifyLast l).map Client.id = l.map Client.id
  | [] => rfl
  | [_] => rfl
  | c :: c2 :: rest => by
    have ih := notifyLast_map_id (c2 :: rest)
    simp only [notifyLast] at ih ⊢
    simp [ih]

theorem map_notify_id (l : List Client) :
    (l.map Client.notify).map Client.id = l.map Client.id := by
  induction l with
  | nil => rfl
  | cons c rest ih => simp [Client.notify, ih]

theorem set_x_fst_id (env : Env) (c : Client) (x : Int) :
    (Client.set_x env c x).1.id = c.id := by
  cases hm : c.maximized <;> simp [Client.set_x, hm]

theorem set_y_fst_id (env : Env) (c : Client) (y : Int) :
    (Client.set_y env c y).1.id = c.id := by
  cases hm : c.maximized <;> simp [Client.set_y, hm]

theorem set_size_fst_id (env : Env) (c : Client) (w h : Nat) :
    (Client.set_size env c w h).1.id = c.id := by
  cases hm : c.maximized <;> simp [Client.set_size, hm]

theorem set_maximized_fst_id (env : Env) (c : Client) (m : Bool) :
    (Client.set_maximized env c m).1.id = c.id := by
  by_cases h : m = c.maximized <;> cases m <;> simp [Client.set_maximized, h]

theorem drag_move_fst_id (env : Env) (c : Client) (dx dy : Int) :
    (Wm.handle_drag_move env c dx dy).1.id = c.id := by
  rw [Wm.handle_drag_move]
  rw [set_y_fst_id, set_x_fst_id]

theorem drag_resize_fst_id (env : Env) (c : Client) (dx dy : Int) :
    (Wm.handle_drag_resize env c dx dy).1.id = c.id := by
  rw [Wm.handle_drag_resize]
  rw [set_size_fst_id]

theorem map_id_set_eq : ∀ (l : List Client) (i : Nat) (c' : Client),
    c'.id = (l.getD i default).id →
    (l.set i c').map Client.id = l.map Client.id
  | [], _, _, _ => rfl
  | a :: l, 0, c', h => by
    simp [List.getD] at h
    simp [h]
  | a :: l, i + 1, c', h => by
    simp only [List.set_cons_succ, List.map_cons]
    rw [map_id_set_eq l i c' (by simpa [List.getD] using h)]

theorem perm_cons_eraseIdx {α : Type} : ∀ (l : List α) (i : Nat) (c : α),
    l[i]? = some c → l.Perm (c :: l.eraseIdx i)
  | [], i, c, h => by simp at h
  | a :: l, 0, c, h => by
    simp at h
    subst h
    simp [List.eraseIdx_cons_zero]
  | a :: l, i + 1, c, h => by
    simp only [List.getElem?_cons_succ] at h
    have ih := perm_cons_eraseIdx l i c h
    rw [List.eraseIdx_cons_succ]
    exact (ih.cons a).trans (List.Perm.swap c a _)

theorem cons_set_perm {α : Type} : ∀ (t : List α) (k : Nat) (a b : α),
    t[k]? = some b → (b :: t.set k a).Perm (a :: t)
  | [], k, _, _, h => by simp at h
  | c :: t, 0, a, b, h => by
    simp only [List.getElem?_cons_zero] at h
    have hb : c = b := Option.some.inj h
    subst hb
    simp only [List.set_cons_zero]
    exact List.Perm.swap a c t
  | c :: t, k + 1, a, b, h => by
    simp only [List.getElem?_cons_succ] at h
    have ih := cons_set_perm t k a b h
    simp only [List.set_cons_succ]
    exact (List.Perm.swap c b _).trans ((ih.cons c).trans (List.Perm.swap a c t))

theorem listSwap_perm {α : Type} : ∀ (l : List α) (i j : Nat),
    (listSwap l i j).Perm l
  | [], _, _ => by simp [listSwap]
  | a :: t, 0, 0 => by
    rw [listSwap]
    simp only [List.getElem?_cons_zero, List.set_cons_zero]
    exact List.Perm.refl _
  | a :: t, 0, j + 1 => by
    rw [listSwap]
    simp only [List.getElem?_cons_zero, List.getElem?_cons_succ]
    rcases hk : t[j]? with _ | b
    · exact List.Perm.refl _
    · simp only [List.set_cons_zero, List.set_cons_succ]
      exact cons_set_perm t j a b hk
  | a :: t, i + 1, 0 => by
    rw [listSwap]
    simp only [List.getElem?_cons_zero, List.getElem?_cons_succ]
    rcases hk : t[i]? with _ | a'
    · exact List.Perm.refl _
    · simp only [List.set_cons_succ, List.set_cons_zero]
      exact cons_set_perm t i a a' hk
  | a :: t, i + 1, j + 1 => by
    rw [listSwap]
    simp only [List.getElem?_cons_succ]
    rcases hi : t[i]? with _ | a'
    · exact List.Perm.refl _
    rcases hj : t[j]? with _ | b
    · exact List.Perm.refl _
    simp only [List.set_cons_succ]
    have h2 := listSwap_perm t i j
    rw [listSwap, hi, hj] at h2
    exact h2.cons a

theorem eraseIdx_findIdx_eq_erase : ∀ (l : List Nat) (w : Nat),
    l.eraseIdx (l.findIdx (fun i => i == w)) = l.erase w
  | [], _ => rfl
  | a :: l, w => by
    rw [List.findIdx_cons, List.erase_cons]
    by_cases h : a = w
    · simp [h]
    · have hb : (a == w) = false := by simp [h]
      rw [if_neg (by simp [hb] : ¬((a == w) = true))]
      simp only [hb, cond_false, List.eraseIdx_cons_succ]
      rw [eraseIdx_findIdx_eq_erase l w]

theorem map_id_eraseIdx_of_findIdx? : ∀ (l : List Client) (wId : Nat) (si : Nat),
    l.findIdx? (fun c => c.id == wId) = some si →
    (l.eraseIdx si).map Client.id = (l.map Client.id).erase wId
  | [], _, _, h => by simp at h
  | a :: l, wId, si, h => by
    rw [List.findIdx?_cons] at h
    by_cases ha : (a.id == wId) = true
    · rw [if_pos ha] at h
      have h0 : si = 0 := (Option.some.inj h).symm
      subst h0
      have haid : a.id = wId := by simpa using ha
      simp [List.eraseIdx_cons_zero, List.erase_cons, haid]
    · rw [if_neg ha, List.findIdx?_succ] at h
      rcases hrec : l.findIdx? (fun c => c.id == wId) with _ | si'
      · rw [hrec] at h
        simp at h
      · rw [hrec] at h
        simp only [Option.map] at h
        have h1 : si = si' + 1 := (Option.some.inj h).symm
        subst h1
        rw [List.eraseIdx_cons_succ]
        simp only [List.map_cons, List.erase_cons]
        have hb : (a.id == wId) = false := by simpa using ha
        rw [if_neg (by simp [hb] : ¬((a.id == wId) = true))]
        rw [map_id_eraseIdx_of_findIdx? l wId si' hrec]

theorem findClient_spec : ∀ (wss : List Workspace) (window : Nat) (wi si : Nat),
    findClient window wss = some (wi, si) →
    wi < wss.length ∧
      (wss.getD wi default).stack.findIdx? (fun c => c.id == window) = some si
  | [], _, _, _, h => by simp [findClient] at h
  | w :: rest, window, wi, si, h => by
    rw [findClient] at h
    rcases hf : w.stack.findIdx? (fun c => c.id == window) with _ | si0 <;>
      rw [hf] at h
    · rcases hrec : findClient window rest with _ | p <;> rw [hrec] at h
      · simp at h
      · simp only [Option.map] at h
        have hp := Option.some.inj h
        have hwi : p.1 + 1 = wi := congrArg Prod.fst hp
        have hsi : p.2 = si := congrArg Prod.snd hp
        have h1 := findClient_spec rest window p.1 p.2 hrec
        subst hwi
        subst hsi
        refine ⟨Nat.succ_lt_succ h1.1, ?_⟩
        rw [List.getD_cons_succ]
        exact h1.2
    · have hp := Option.some.inj h
      have hwi : (0 : Nat) = wi := congrArg Prod.fst hp
      have hsi : si0 = si := congrArg Prod.snd hp
      subst hwi
      subst hsi
      exact ⟨Nat.succ_pos _, by rw [List.getD_cons_zero]; exact hf⟩

theorem consistent_updWs {s : Wm} (h : Wm.consistent s) (i : Nat)
    {f : Workspace → Workspace}
    (hf : Workspace.consistent (f (s.workspaces.getD i default))) :
    Wm.consistent (s.updWs i f) :=
  fun w hw => forall_mem_set h hf w hw

theorem consistent_erase_both {w : Workspace} (hw : w.consistent) (window : Nat)
    {stack' : List Client}
    (hs : stack'.map Client.id = (w.stack.map Client.id).erase window)
    {tl' : List Nat} (ht : tl' = w.tasklist.erase window) :
    Workspace.consistent ⟨stack', tl'⟩ := by
  rw [consistent_iff_perm] at hw ⊢
  constructor
  · rw [hs]
    exact List.Nodup.erase window hw.1
  · rw [hs, ht]
    exact hw.2.erase window

theorem consistent_append_one {w : Workspace} (hw : w.consistent) (c : Client)
    (hnot : c.id ∉ w.stack.map Client.id) :
    Workspace.consistent ⟨w.stack ++ [c], w.tasklist ++ [c.id]⟩ := by
  rw [consistent_iff_perm] at hw ⊢
  constructor
  · rw [List.map_append]
    rw [List.nodup_append]
    exact ⟨hw.1, by simp, by simpa [List.disjoint_singleton] using hnot⟩
  · rw [List.map_append]
    exact hw.2.append (List.Perm.refl _)

theorem globallyNodup_not_mem {s : Wm} (hg : Wm.globallyNodup s) {i j : Nat}
    (hij : i ≠ j) {a : Nat}
    (ha : a ∈ (s.workspaces.getD i default).stack.map Client.id) :
    a ∉ (s.workspaces.getD j default).stack.map Client.id := by
  rcases Nat.lt_or_ge i s.workspaces.length with hi | hi
  · rcases Nat.lt_or_ge j s.workspaces.length with hj | hj
    · have hpair := (List.nodup_flatten.1 hg).2
      rw [List.pairwise_iff_get] at hpair
      have hgetD : ∀ k (hk : k < s.workspaces.length),
          (s.workspaces.getD k default) = s.workspaces.get ⟨k, hk⟩ := by
        intro k hk
        rw [List.getD_eq_getElem?_getD, List.getElem?_eq_some_iff.2 ⟨hk, rfl⟩]
        rfl
      have hchunk : ∀ k (hk : k < s.workspaces.length),
          (s.workspaces.map (fun w => w.stack.map Client.id)).get
              ⟨k, by simpa using hk⟩ =
            (s.workspaces.getD k default).stack.map Client.id := by
        intro k hk
        rw [hgetD k hk]
        simp [List.getElem_map]
      rcases Nat.lt_or_ge i j with hij' | hij'
      · have hd := hpair ⟨i, by simpa using hi⟩ ⟨j, by simpa using hj⟩
          (by simpa using hij')
        rw [hchunk i hi, hchunk j hj] at hd
        exact hd ha
      · have hji : j < i := Nat.lt_of_le_of_ne hij' (fun hh => hij hh.symm)
        have hd := hpair ⟨j, by simpa using hj⟩ ⟨i, by simpa using hi⟩
          (by simpa using hji)
        rw [hchunk j hj, hchunk i hi] at hd
        exact hd.symm ha
    · intro hmem
      rw [List.getD_eq_getElem?_getD, List.getElem?_eq_none (by simpa using hj)] at hmem
      simp [default] at hmem
  · rw [List.getD_eq_getElem?_getD, List.getElem?_eq_none (by simpa using hi)] at ha
    simp [default] at ha

theorem raise_client_consistent (env : Env) (s : Wm) (i : Nat)
    (h : Wm.consistent s) : Wm.consistent (Wm.raise_client env s i).1 := by
  simp only [Wm.raise_client]
  split_ifs with hi
  · exact h
  rcases hget : s.active_workspace.stack.get? i with _ | client
  · exact h
  apply consistent_updWs h
  apply consistent_of_stack_perm ?_ (consistent_getD h s.active_workspace_index)
  rw [List.map_append, notifyLast_map_id]
  have hget' : (s.active_workspace.stack)[i]? = some client := by
    rwa [List.get?_eq_getElem?] at hget
  have hp : (s.active_workspace.stack.map Client.id).Perm
      (client.id :: (s.active_workspace.stack.eraseIdx i).map Client.id) := by
    have hq := (perm_cons_eraseIdx _ i client hget').map Client.id
    simpa using hq
  have hone : ([client.notify].map Client.id) = [client.id] := by
    simp [Client.notify]
  rw [hone]
  exact (List.perm_append_singleton _ _).trans hp.symm

theorem handle_motion_notify_consistent (env : Env) (s : Wm) (event : Nat)
    (rx ry : Int) (h : Wm.consistent s) :
    Wm.consistent (Wm.handle_motion_notify env s event rx ry).1 := by
  simp only [Wm.handle_motion_notify]
  rcases hds : s.drag_state with _ | state
  · exact h
  rcases hfind : (s.active_workspace.stack).findIdx?
      (fun c => c.id == event || c.container_id == event) with _ | idx
  · simp only [hfind]
    exact h
  simp only [hfind]
  intro w hw
  simp only [Wm.updWs] at hw
  rcases List.mem_or_eq_of_mem_set hw with hmem | heq
  · exact h w hmem
  · subst heq
    refine consistent_of_stack_perm ?_ (consistent_getD h s.active_workspace_index)
    have hset := map_id_set_eq (s.workspaces.getD s.active_workspace_index default).stack idx
      (match state.kind with
       | DragKind.move => Wm.handle_drag_move env (s.active_workspace.stack.getD idx default)
           (wrapI16 (rx - u16ToI16 state.x)) (wrapI16 (ry - u16ToI16 state.y))
       | DragKind.resize => Wm.handle_drag_resize env (s.active_workspace.stack.getD idx default)
           (wrapI16 (rx - u16ToI16 state.x)) (wrapI16 (ry - u16ToI16 state.y))).1
      (by cases state.kind <;>
        simp [drag_move_fst_id, drag_resize_fst_id, Wm.active_workspace])
    rw [hset]

theorem handle_property_notify_consistent (env : Env) (s : Wm) (window : Nat)
    (atom : Atom) (h : Wm.consistent s) :
    Wm.consistent (Wm.handle_property_notify env s window atom).1 := by
  simp only [Wm.handle_property_notify]
  rcases hf : findClient window s.workspaces with _ | p
  · exact h
  rcases p with ⟨wi, si⟩
  rcases atom
  case other => exact h
  case wm_class =>
    intro w hw
    simp only [Wm.updWs] at hw
    rcases List.mem_or_eq_of_mem_set hw with hmem | heq
    · exact h w hmem
    · subst heq
      refine consistent_of_stack_perm ?_ (consistent_getD h wi)
      have hset := map_id_set_eq (s.workspaces.getD wi default).stack si
        (((s.workspaces.getD wi default).stack.getD si default).set_class
          (env.get_window_class ((s.workspaces.getD wi default).stack.getD si default).id))
        (by simp [Client.set_class])
      rw [hset]
  case net_wm_name =>
    intro w hw
    simp only [Wm.updWs] at hw
    rcases List.mem_or_eq_of_mem_set hw with hmem | heq
    · exact h w hmem
    · subst heq
      refine consistent_of_stack_perm ?_ (consistent_getD h wi)
      have hset := map_id_set_eq (s.workspaces.getD wi default).stack si
        (((s.workspaces.getD wi default).stack.getD si default).set_title
          (env.get_window_title ((s.workspaces.getD wi default).stack.getD si default).id))
        (by simp [Client.set_title])
      rw [hset]
  case net_wm_icon =>
    intro w hw
    simp only [Wm.updWs] at hw
    rcases List.mem_or_eq_of_mem_set hw with hmem | heq
    · exact h w hmem
    · subst heq
      refine consistent_of_stack_perm ?_ (consistent_getD h wi)
      have hset := map_id_set_eq (s.workspaces.getD wi default).stack si
        (((s.workspaces.getD wi default).stack.getD si default).set_icon
          (env.get_window_icon ((s.workspaces.getD wi default).stack.getD si default).id))
        (by simp [Client.set_icon])
      rw [hset]

theorem handle_configure_request_consistent (env : Env) (s : Wm) (window : Nat)
    (mw mh : Bool) (ww hh : Nat) (h : Wm.consistent s) :
    Wm.consistent (Wm.handle_configure_request env s window mw mh ww hh).1 := by
  simp only [Wm.handle_configure_request]
  rcases hf : findClient window s.workspaces with _ | p
  · exact h
  rcases p with ⟨wi, si⟩
  split_ifs with hmask
  · exact h
  apply consistent_updWs h
  apply consistent_of_stack_perm ?_ (consistent_getD h wi)
  rw [map_id_set_eq]
  simp [set_size_fst_id]

theorem tasklist_swap_forward_consistent (env : Env) (s : Wm)
    (h : Wm.consistent s) :
    Wm.consistent (Wm.move_active_client_forward_in_tasklist env s).1 := by
  simp only [Wm.move_active_client_forward_in_tasklist]
  rcases hl : (s.active_workspace.stack).getLast? with _ | active_client
  · exact h
  simp only [hl]
  apply consistent_updWs h
  exact consistent_of_tasklist_perm (listSwap_perm _ _ _)
    (consistent_getD h s.active_workspace_index)

theorem tasklist_swap_backward_consistent (env : Env) (s : Wm)
    (h : Wm.consistent s) :
    Wm.consistent (Wm.move_active_client_backward_in_tasklist env s).1 := by
  simp only [Wm.move_active_client_backward_in_tasklist]
  rcases hl : (s.active_workspace.stack).getLast? with _ | active_client
  · exact h
  simp only [hl]
  apply consistent_updWs h
  exact consistent_of_tasklist_perm (listSwap_perm _ _ _)
    (consistent_getD h s.active_workspace_index)

theorem change_active_workspace_consistent (env : Env) (s : Wm) (index : Nat)
    (h : Wm.consistent s) :
    Wm.consistent (Wm.change_active_workspace env s index).1 := by
  simp only [Wm.change_active_workspace]
  split_ifs with hi
  · exact h
  intro w hw
  simp only [Wm.updWs] at hw
  rcases List.mem_or_eq_of_mem_set hw with hmem | heq
  · exact h w hmem
  · subst heq
    refine consistent_of_stack_perm ?_ (consistent_getD h index)
    rw [map_notify_id]

theorem handle_unmap_notify_consistent (env : Env) (s : Wm) (window : Nat)
    (h : Wm.consistent s) :
    Wm.consistent (Wm.handle_unmap_notify env s window).1 := by
  simp only [Wm.handle_unmap_notify]
  rcases hf : findClient window s.workspaces with _ | p
  · exact h
  rcases p with ⟨wi, si⟩
  have hspec := findClient_spec _ _ _ _ hf
  have hws := consistent_getD h wi
  have hstack : ((s.workspaces.getD wi default).stack.eraseIdx si).map Client.id =
      ((s.workspaces.getD wi default).stack.map Client.id).erase window :=
    map_id_eraseIdx_of_findIdx? _ _ _ hspec.2
  have htl : (s.workspaces.getD wi default).tasklist.eraseIdx
      ((s.workspaces.getD wi default).tasklist.findIdx (fun i => i == window)) =
      (s.workspaces.getD wi default).tasklist.erase window :=
    eraseIdx_findIdx_eq_erase _ _
  dsimp only
  split_ifs with hactive <;>
    apply consistent_updWs h
  · exact consistent_erase_both hws window
      (by rw [notifyLast_map_id, hstack]) htl
  · exact consistent_erase_both hws window hstack htl

theorem client_new_fst_id (env : Env) (cid id : Nat) (x y : Int) (w h : Nat)
    (m : Bool) (cls ttl : Option String) (icon : Option Nat) :
    (Client.new env cid id x y w h m cls ttl icon).1.id = id := rfl

theorem getD_mem_or_default {α : Type} [Inhabited α] (l : List α) (i : Nat) :
    l.getD i default ∈ l ∨ l.getD i default = default := by
  rw [List.getD_eq_getElem?_getD]
  rcases hlt : l[i]? with _ | w
  · right
    rfl
  · left
    rcases List.getElem?_eq_some_iff.1 hlt with ⟨hl, hw⟩
    exact hw ▸ List.getElem_mem hl

theorem handle_map_request_consistent (env : Env) (s : Wm) (window : Nat)
    (h : Wm.consistent s) :
    Wm.consistent (Wm.handle_map_request env s window).1 := by
  simp only [Wm.handle_map_request]
  by_cases hm : (s.workspaces.any fun w => w.stack.any fun c => c.id == window) = true
  · rw [if_pos hm]
    exact h
  rw [if_neg hm]
  have hm2 : (s.workspaces.any fun w => w.stack.any fun c => c.id == window) = false := by
    simpa using hm
  have hnotin : window ∉
      (s.workspaces.getD s.active_workspace_index default).stack.map Client.id := by
    intro hmem
    rcases List.mem_map.1 hmem with ⟨c, hc, hcid⟩
    rcases getD_mem_or_default s.workspaces s.active_workspace_index with hin | hdef
    · have h1 := List.any_eq_false.1 hm2 _ hin
      rw [Bool.not_eq_true] at h1
      have h2 := List.any_eq_false.1 h1 c hc
      simp [hcid] at h2
    · rw [hdef] at hc
      simp [default] at hc
  have hawnotin : window ∉ s.active_workspace.stack.map Client.id := hnotin
  have hws : (s.active_workspace).consistent :=
    consistent_getD h s.active_workspace_index
  intro w hw
  simp only [Wm.updWs] at hw
  rcases List.mem_or_eq_of_mem_set hw with hmem | heq
  · exact h w hmem
  subst heq
  rcases hlast : s.active_workspace.stack.getLast? with _ | active_client
  · have hempty : s.active_workspace.stack = [] := List.getLast?_eq_none_iff.1 hlast
    have htl : s.active_workspace.tasklist = [] := by
      rcases hws with ⟨_, _, _, h4⟩
      rw [List.eq_nil_iff_forall_not_mem]
      intro a ha
      have := h4 a ha
      rw [hempty] at this
      simp at this
    dsimp only
    rw [hempty, htl]
    refine ⟨?_, ?_, ?_, ?_⟩ <;> simp [client_new_fst_id]
  · dsimp only
    rcases (consistent_iff_perm _).1 hws with ⟨hnodup, hperm⟩
    have hmemac : active_client ∈ s.active_workspace.stack := by
      rw [← List.dropLast_append_getLast? active_client hlast]
      simp
    have hacid : active_client.id ∈ s.active_workspace.tasklist :=
      hperm.mem_iff.1 (List.mem_map.2 ⟨active_client, hmemac, rfl⟩)
    have hk : s.active_workspace.tasklist.findIdx (fun i => i == active_client.id) <
        s.active_workspace.tasklist.length :=
      List.findIdx_lt_length.2 ⟨active_client.id, hacid, by simp⟩
    rw [consistent_iff_perm]
    constructor
    · rw [List.map_append, notifyLast_map_id]
      rw [List.nodup_append]
      refine ⟨hnodup, by simp, ?_⟩
      simpa [List.disjoint_singleton, client_new_fst_id] using hawnotin
    · rw [List.map_append, notifyLast_map_id]
      refine List.Perm.trans ?_ ((List.perm_insertIdx window _
        (Nat.succ_le_of_lt hk)).symm)
      simp only [List.map_cons, List.map_nil, client_new_fst_id]
      exact (List.perm_append_singleton _ _).trans (hperm.cons window)

theorem move_active_client_consistent (env : Env) (s : Wm) (d : Nat)
    (h : Wm.consistent s) (hg : Wm.globallyNodup s) :
    Wm.consistent (Wm.move_active_client_to_workspace env s d).1 := by
  simp only [Wm.move_active_client_to_workspace]
  rcases hlast : s.active_workspace.stack.getLast? with _ | client
  · exact h
  dsimp only
  have hws : (s.active_workspace).consistent :=
    consistent_getD h s.active_workspace_index
  have hlt : s.active_workspace_index < s.workspaces.length := by
    by_contra hge
    have : s.active_workspace = default := by
      rw [Wm.active_workspace, List.getD_eq_getElem?_getD,
        List.getElem?_eq_none (by omega)]
      rfl
    rw [this] at hlast
    simp [default] at hlast
  have hdecomp : s.active_workspace.stack.dropLast ++ [client] =
      s.active_workspace.stack :=
    List.dropLast_append_getLast? client hlast
  have hids : s.active_workspace.stack.map Client.id =
      (s.active_workspace.stack.dropLast.map Client.id) ++ [client.id] := by
    conv_lhs => rw [← hdecomp]
    simp
  rcases (consistent_iff_perm _).1 hws with ⟨hnodup, _⟩
  have hcnotin : client.id ∉ s.active_workspace.stack.dropLast.map Client.id := by
    rw [hids, List.nodup_append] at hnodup
    simpa [List.disjoint_singleton] using hnodup.2.2
  have hcons1 : Workspace.consistent
      ⟨notifyLast s.active_workspace.stack.dropLast,
       s.active_workspace.tasklist.eraseIdx
         (s.active_workspace.tasklist.findIdx (fun i => i == client.id))⟩ := by
    refine consistent_erase_both hws client.id ?_ (eraseIdx_findIdx_eq_erase _ _)
    rw [notifyLast_map_id, hids, List.erase_append_right _ hcnotin,
      List.erase_cons_head]
    simp
  intro w hw
  simp only [Wm.updWs] at hw
  rcases List.mem_or_eq_of_mem_set hw with hw1 | heq
  · rcases List.mem_or_eq_of_mem_set hw1 with hmem | heq1
    · exact h w hmem
    · subst heq1
      exact hcons1
  subst heq
  by_cases hd : d = s.active_workspace_index
  · subst hd
    have hget1 : ((s.workspaces.set s.active_workspace_index
        (⟨notifyLast s.active_workspace.stack.dropLast,
          s.active_workspace.tasklist.eraseIdx
            (s.active_workspace.tasklist.findIdx (fun i => i == client.id))⟩ :
          Workspace)).getD s.active_workspace_index default) =
        ⟨notifyLast s.active_workspace.stack.dropLast,
         s.active_workspace.tasklist.eraseIdx
           (s.active_workspace.tasklist.findIdx (fun i => i == client.id))⟩ := by
      rw [List.getD_eq_getElem?_getD, List.getElem?_set_self (by simpa using hlt)]
      rfl
    rw [hget1]
    refine consistent_append_one hcons1 client ?_
    rw [notifyLast_map_id]
    exact hcnotin
  · have hget2 : ((s.workspaces.set s.active_workspace_index
        (⟨notifyLast s.active_workspace.stack.dropLast,
          s.active_workspace.tasklist.eraseIdx
            (s.active_workspace.tasklist.findIdx (fun i => i == client.id))⟩ :
          Workspace)).getD d default) = s.workspaces.getD d default := by
      rw [List.getD_eq_getElem?_getD,
        List.getElem?_set_ne (fun hh => hd hh.symm),
        List.getD_eq_getElem?_getD]
    rw [hget2]
    refine consistent_append_one (consistent_getD h d) client ?_
    refine globallyNodup_not_mem hg (fun hh => hd hh.symm) ?_
    have hcmem : client ∈ s.active_workspace.stack := by
      rw [← hdecomp]
      simp
    exact List.mem_map.2 ⟨client, hcmem, rfl⟩

theorem raise_next_consistent (env : Env) (s : Wm) (h : Wm.consistent s) :
    Wm.consistent (Wm.raise_next_tasklist_client env s).1 := by
  simp only [Wm.raise_next_tasklist_client]
  rcases hl : s.active_workspace.stack.getLast? with _ | active_client
  · exact h
  · exact raise_client_consistent env s _ h

theorem raise_previous_consistent (env : Env) (s : Wm) (h : Wm.consistent s) :
    Wm.consistent (Wm.raise_previous_tasklist_client env s).1 := by
  simp only [Wm.raise_previous_tasklist_client]
  rcases hl : s.active_workspace.stack.getLast? with _ | active_client
  · exact h
  · exact raise_client_consistent env s _ h

theorem handle_key_press_consistent (env : Env) (s : Wm) (kc : Option Keycode)
    (shift : Bool) (h : Wm.consistent s) (hg : Wm.globallyNodup s) :
    Wm.consistent (Wm.handle_key_press env s kc shift).1 := by
  rcases kc with _ | k
  · exact h
  cases k <;> cases shift <;>
    simp only [Wm.handle_key_press] <;>
    first
    | exact h
    | exact move_active_client_consistent env s _ h hg
    | exact change_active_workspace_consistent env s _ h
    | exact tasklist_swap_forward_consistent env s h
    | exact tasklist_swap_backward_consistent env s h
    | exact raise_next_consistent env s h
    | exact raise_previous_consistent env s h
    | skip
  all_goals
    rcases hl : s.active_workspace.stack.getLast? with _ | client
  any_goals exact h
  all_goals
    intro w hw
    simp only [Wm.updWs] at hw
    rcases List.mem_or_eq_of_mem_set hw with hmem | heq
    · exact h w hmem
    · subst heq
      refine consistent_of_stack_perm ?_ (consistent_getD h s.active_workspace_index)
      have hgl : (s.workspaces.getD s.active_workspace_index default).stack.getD
          ((s.workspaces.getD s.active_workspace_index default).stack.length - 1)
          default = client := by
        rw [Wm.active_workspace] at hl
        rw [List.getD_eq_getElem?_getD, ← List.getLast?_eq_getElem?, hl]
        rfl
      have hset := map_id_set_eq (s.workspaces.getD s.active_workspace_index default).stack
        ((s.workspaces.getD s.active_workspace_index default).stack.length - 1)
        (Client.set_maximized env client (!client.maximized)).1
        (by rw [set_maximized_fst_id, hgl])
      rw [hset]

theorem handle_button_press_consistent (env : Env) (s : Wm) (event button : Nat)
    (mod4 : Bool) (ex ey rx ry : Int) (h : Wm.consistent s) :
    Wm.consistent (Wm.handle_button_press env s event button mod4 ex ey rx ry).1 := by
  simp only [Wm.handle_button_press]
  rcases hf : (s.active_workspace.stack).findIdx?
      (fun c => c.id == event || c.container_id == event) with _ | client_index <;>
    simp only [hf]
  · exact h
  split_ifs
  all_goals try exact h
  all_goals
    have hr := raise_client_consistent env s client_index h
    rcases hl : ((Wm.raise_client env s client_index).1.active_workspace.stack).getLast?
        with _ | client <;> simp only [hl]
    · exact hr
    · split_ifs <;> exact hr

theorem handle_event_consistent (env : Env) (s : Wm) (e : XEvent)
    (h : Wm.consistent s) (hg : Wm.globallyNodup s) :
    Wm.consistent (Wm.handle_event env s e).1 := by
  cases e <;> simp only [Wm.handle_event]
  case map_request window => exact handle_map_request_consistent env s window h
  case unmap_notify window => exact handle_unmap_notify_consistent env s window h
  case key_press kc shift => exact handle_key_press_consistent env s kc shift h hg
  case button_press e b m ex ey rx ry =>
    exact handle_button_press_consistent env s e b m ex ey rx ry h
  case motion_notify e rx ry => exact handle_motion_notify_consistent env s e rx ry h
  case button_release => exact h
  case property_notify w a => exact handle_property_notify_consistent env s w a h
  case configure_request w mw mh ww hh =>
    exact handle_configure_request_consistent env s w mw mh ww hh h
  case other => exact h

theorem manage_serialized_id (env : Env) (cid : Nat) (sc : SerializedClient)
    (cl : Client) (effs : List Eff)
    (h : Wm.manage_existing_client env cid (ExistingClientInfo.serialized sc) =
      some (cl, effs)) : cl.id = sc.id := by
  rw [Wm.manage_existing_client] at h
  by_cases h1 : (env.get_window_attributes sc.id).map_state_unmapped
  · simp [h1] at h
  by_cases h2 : (env.get_window_attributes sc.id).override_redirect
  · simp [h1, h2] at h
  simp only [h1, h2, if_false, Bool.false_eq_true] at h
  have hp := Option.some.inj h
  exact congrArg (fun q => Client.id q.1) hp.symm

theorem manage_byId_id (env : Env) (cid : Nat) (id : Nat)
    (cl : Client) (effs : List Eff)
    (h : Wm.manage_existing_client env cid (ExistingClientInfo.byId id) =
      some (cl, effs)) : cl.id = id := by
  rw [Wm.manage_existing_client] at h
  by_cases h1 : (env.get_window_attributes id).map_state_unmapped
  · simp [h1] at h
  by_cases h2 : (env.get_window_attributes id).override_redirect
  · simp [h1, h2] at h
  simp only [h1, h2, if_false, Bool.false_eq_true] at h
  have hp := Option.some.inj h
  exact congrArg (fun q => Client.id q.1) hp.symm

theorem adoptSerializedStack_spec (env : Env) (act : Bool) :
    ∀ (scs : List SerializedClient) (existing : List Nat) (cid : Nat),
    existing.Nodup →
    (adoptSerializedStack env act scs existing cid).2.1.Sublist existing ∧
    (adoptSerializedStack env act scs existing cid).2.1.Nodup ∧
    ((adoptSerializedStack env act scs existing cid).1.map Client.id).Nodup ∧
    (∀ c ∈ (adoptSerializedStack env act scs existing cid).1,
       c.id ∈ scs.map SerializedClient.id ∧ c.id ∈ existing ∧
       c.id ∉ (adoptSerializedStack env act scs existing cid).2.1)
  | [], existing, cid, hnd => by
    simp only [adoptSerializedStack]
    exact ⟨List.Sublist.refl _, hnd, by simp, by simp⟩
  | sc :: rest, existing, cid, hnd => by
    simp only [adoptSerializedStack]
    by_cases hin : sc.id ∈ existing
    · rw [if_pos hin]
      have hnd1 : (existing.erase sc.id).Nodup := List.Nodup.erase _ hnd
      rcases hmg : Wm.manage_existing_client env cid
          (ExistingClientInfo.serialized sc) with _ | p
      · have IH := adoptSerializedStack_spec env act rest (existing.erase sc.id)
          cid hnd1
        refine ⟨IH.1.trans (List.erase_sublist _ _), IH.2.1, IH.2.2.1, ?_⟩
        intro c hc
        have h3 := IH.2.2.2 c hc
        exact ⟨by simp only [List.map_cons]; exact List.mem_cons_of_mem _ h3.1,
          (List.erase_sublist _ _).subset h3.2.1, h3.2.2⟩
      · rcases p with ⟨client, effs⟩
        have IH := adoptSerializedStack_spec env act rest (existing.erase sc.id)
          (cid + 1) hnd1
        have hid : client.id = sc.id := manage_serialized_id env cid sc client effs hmg
        have hnotmem : sc.id ∉ existing.erase sc.id := hnd.not_mem_erase
        dsimp only
        refine ⟨IH.1.trans (List.erase_sublist _ _), IH.2.1, ?_, ?_⟩
        · rw [List.map_cons, List.nodup_cons]
          refine ⟨?_, IH.2.2.1⟩
          intro hmem
          rcases List.mem_map.1 hmem with ⟨c, hc, hcid⟩
          have h3 := IH.2.2.2 c hc
          rw [hcid, hid] at h3
          exact hnotmem h3.2.1
        · intro c hc
          rcases List.mem_cons.1 hc with hceq | hcmem
          · subst hceq
            refine ⟨by simp [hid], hid ▸ hin, ?_⟩
            intro hmem
            have := IH.1.subset hmem
            rw [hid] at this
            exact hnotmem this
          · have h3 := IH.2.2.2 c hcmem
            exact ⟨by simp only [List.map_cons]; exact List.mem_cons_of_mem _ h3.1,
              (List.erase_sublist _ _).subset h3.2.1, h3.2.2⟩
    · rw [if_neg hin]
      have IH := adoptSerializedStack_spec env act rest existing cid hnd
      refine ⟨IH.1, IH.2.1, IH.2.2.1, ?_⟩
      intro c hc
      have h3 := IH.2.2.2 c hc
      exact ⟨by simp only [List.map_cons]; exact List.mem_cons_of_mem _ h3.1,
        h3.2.1, h3.2.2⟩

theorem initWorkspaces_spec (env : Env) (aidx : Nat) :
    ∀ (sws : List SerializedWorkspace) (wi : Nat) (existing : List Nat) (cid : Nat),
    existing.Nodup →
    (∀ sw ∈ sws, sw.tasklist.Nodup ∧ ∀ c ∈ sw.stack, c.id ∈ sw.tasklist) →
    (initWorkspaces env aidx sws wi existing cid).2.1.Sublist existing ∧
    (initWorkspaces env aidx sws wi existing cid).2.1.Nodup ∧
    (∀ w ∈ (initWorkspaces env aidx sws wi existing cid).1,
       w.consistent ∧
       ∀ a ∈ w.stack.map Client.id,
         a ∉ (initWorkspaces env aidx sws wi existing cid).2.1)
  | [], wi, existing, cid, hnd, _ => by
    simp only [initWorkspaces]
    exact ⟨List.Sublist.refl _, hnd, by simp⟩
  | sw :: rest, wi, existing, cid, hnd, hgood => by
    simp only [initWorkspaces]
    have hA := adoptSerializedStack_spec env (wi == aidx) sw.stack existing cid hnd
    have hgsw := hgood sw (List.mem_cons_self _ _)
    have IH := initWorkspaces_spec env aidx rest (wi + 1)
      (adoptSerializedStack env (wi == aidx) sw.stack existing cid).2.1
      (adoptSerializedStack env (wi == aidx) sw.stack existing cid).2.2.1
      hA.2.1 (fun sw2 h2 => hgood sw2 (List.mem_cons_of_mem _ h2))
    refine ⟨IH.1.trans hA.1, IH.2.1, ?_⟩
    intro w hw
    rcases List.mem_cons.1 hw with heq | hmem
    · subst heq
      constructor
      · refine ⟨hA.2.2.1, ?_, ?_, ?_⟩
        · exact List.Nodup.filter _ hgsw.1
        · intro a ha
          rcases List.mem_map.1 ha with ⟨c, hc, hcid⟩
          have h3 := hA.2.2.2 c hc
          rcases List.mem_map.1 h3.1 with ⟨sc, hsc, hscid⟩
          have htl : a ∈ sw.tasklist := by
            rw [← hcid, ← hscid]
            exact hgsw.2 sc hsc
          refine List.mem_filter.2 ⟨htl, ?_⟩
          exact List.any_eq_true.2 ⟨c, hc, by simp [hcid]⟩
        · intro a ha
          have hfil := List.mem_filter.1 ha
          rcases List.any_eq_true.1 hfil.2 with ⟨c, hc, hcid⟩
          exact List.mem_map.2 ⟨c, hc, by simpa using hcid⟩
      · intro a ha
        rcases List.mem_map.1 ha with ⟨c, hc, hcid⟩
        have h3 := hA.2.2.2 c hc
        intro hmem2
        exact (hcid ▸ h3.2.2) (IH.1.subset hmem2)
    · exact IH.2.2 w hmem

theorem adoptLeftovers_spec (env : Env) :
    ∀ (ids : List Nat) (cid : Nat),
    ((adoptLeftovers env ids cid).1.map Client.id).Sublist ids
  | [], cid => by simp [adoptLeftovers]
  | id :: rest, cid => by
    simp only [adoptLeftovers]
    rcases hmg : Wm.manage_existing_client env cid (ExistingClientInfo.byId id)
        with _ | p
    · exact (adoptLeftovers_spec env rest cid).trans (List.sublist_cons_self _ _)
    · rcases p with ⟨client, effs⟩
      dsimp only
      rw [List.map_cons, manage_byId_id env cid id client effs hmg]
      exact List.Sublist.cons₂ _ (adoptLeftovers_spec env rest (cid + 1))

theorem consistent_append_many {w : Workspace} (hw : w.consistent) (L : List Client)
    (hnd : (L.map Client.id).Nodup)
    (hdisj : ∀ a ∈ w.stack.map Client.id, a ∉ L.map Client.id) :
    Workspace.consistent ⟨w.stack ++ L, w.tasklist ++ L.map Client.id⟩ := by
  rw [consistent_iff_perm] at hw ⊢
  constructor
  · rw [List.map_append, List.nodup_append]
    exact ⟨hw.1, hnd, fun a ha => hdisj a ha⟩
  · rw [List.map_append]
    exact hw.2.append (List.Perm.refl _)

theorem init_consistent (env : Env) (ser : List SerializedWorkspace) (aidx : Nat)
    (hgood : ∀ sw ∈ ser, sw.tasklist.Nodup ∧ ∀ c ∈ sw.stack, c.id ∈ sw.tasklist) :
    Wm.consistent (Wm.init env ser aidx).1 := by
  simp only [Wm.init]
  have hspec := initWorkspaces_spec env aidx ser 0 env.root_children.dedup 1
    (List.nodup_dedup _) hgood
  have hlsub := adoptLeftovers_spec env
    (initWorkspaces env aidx ser 0 env.root_children.dedup 1).2.1
    (initWorkspaces env aidx ser 0 env.root_children.dedup 1).2.2.1
  intro w hw
  try dsimp only at hw
  rcases List.mem_or_eq_of_mem_set hw with hmem | heq
  · exact (hspec.2.2 w hmem).1
  subst heq
  have hLnd : ((adoptLeftovers env
      (initWorkspaces env aidx ser 0 env.root_children.dedup 1).2.1
      (initWorkspaces env aidx ser 0 env.root_children.dedup 1).2.2.1).1.map
        Client.id).Nodup :=
    List.Nodup.sublist hlsub hspec.2.1
  rcases getD_mem_or_default
      (initWorkspaces env aidx ser 0 env.root_children.dedup 1).1 aidx with
    hin | hdef
  · have hac := hspec.2.2 _ hin
    refine consistent_append_many hac.1 _ hLnd ?_
    intro a ha hmemL
    exact hac.2 a ha (hlsub.subset hmemL)
  · rw [hdef]
    refine consistent_append_many default_workspace_consistent _ hLnd ?_
    intro a ha
    simp [default] at ha

/-- An environment whose display server reports one top-level window, id 7,
mapped and not override-redirect. -/
def envI : Env :=
  { envW with root_children := [7] }

/-- A serialized session whose workspace 0 lists window 7 in its stack but
omits it from its tasklist. -/
def serBad : List SerializedWorkspace :=
  ⟨[⟨7, 0, 0, 100, 100, false⟩], []⟩ :: List.replicate 8 default

/-- A well-formed serialized session: workspace 0 holds window 7 in both
stack and tasklist. -/
def serGood : List SerializedWorkspace :=
  ⟨[⟨7, 0, 0, 100, 100, false⟩], [7]⟩ :: List.replicate 8 default

/-- C1 counterexample: startup reconciliation does NOT establish the
stack/tasklist set-equality for arbitrary serialized session contents.  With
window 7 alive on the display server and a session file whose workspace 0
stack contains id 7 but whose tasklist omits it, `Wm::init` produces
workspace 0 with stack ids `[7]` and tasklist `[]`. -/
theorem init_tasklist_mismatch_counterexample :
    ¬ ∀ w ∈ (Wm.init envI serBad 0).1.workspaces, w.consistent := by
  decide

/-- C1 amended: a single `Wm::handle_event` call preserves per-workspace
stack/tasklist set-equality-without-duplicates from any state in which every
workspace satisfies it AND no client identity occurs in two different
workspaces (the cross-workspace move otherwise duplicates an id in the
destination); and `Wm::init` establishes it provided each serialized
workspace's tasklist is duplicate-free and contains every id of its
serialized stack — which holds of every file written by `Wm::serialize`
from an invariant-satisfying state, but not of arbitrary file contents. -/
theorem wm_invariant_preservation :
    (∀ (env : Env) (s : Wm) (e : XEvent),
       Wm.consistent s → Wm.globallyNodup s →
       Wm.consistent (Wm.handle_event env s e).1) ∧
    (∀ (env : Env) (ser : List SerializedWorkspace) (aidx : Nat),
       (∀ sw ∈ ser, sw.tasklist.Nodup ∧ ∀ c ∈ sw.stack, c.id ∈ sw.tasklist) →
       Wm.consistent (Wm.init env ser aidx).1) :=
  ⟨fun env s e h hg => handle_event_consistent env s e h hg,
   fun env ser aidx hgood => init_consistent env ser aidx hgood⟩

/-- C1 witness: the amended invariant theorem applied to the concrete
two-client state `wmAB` under a maximize-toggle key press, and to a concrete
well-formed serialized session. -/
theorem wm_invariant_preservation_witness :
    Wm.consistent
      (Wm.handle_event envW wmAB (XEvent.key_press (some Keycode.m) false)).1 ∧
    Wm.consistent (Wm.init envI serGood 0).1 :=
  ⟨wm_invariant_preservation.1 envW wmAB (XEvent.key_press (some Keycode.m) false)
     (by decide) (by decide),
   wm_invariant_preservation.2 envI serGood 0 (by decide)⟩

end Vaporwm
